import Mathlib

/-!
# Verification of the Coda formula-customizer DOM layout engine

Shallow embedding of the content-script's configuration model,
storage manager, style manager, DOM selector, layout manager and
dialog processor (from `src/config/defaults.js`, third bundled
snapshot, and `src/core/storage.js`), with theorems settling the
frozen claims about them.
-/

namespace CodaFormula

/-- Inline (or computed-base) style record restricted to the CSS
properties the extension reads or writes.  `""` models an unset
property, exactly as `element.style.x === ''` in the DOM. -/
structure Styles where
  display : String := ""
  flex : String := ""
  overflow : String := ""
  order : String := ""
  borderLeft : String := ""
  borderRight : String := ""
  borderTop : String := ""
  borderBottom : String := ""
  flexDirection : String := ""
  height : String := ""
  width : String := ""
  maxWidth : String := ""
  maxHeight : String := ""
  boxSizing : String := ""
  gap : String := ""
deriving Repr, DecidableEq

/-- A DOM element: identity, tag name, the value of its
`data-coda-ui-id` attribute (`""` when absent), inline styles, the
styles the host page's CSS would give it (used to resolve
`getComputedStyle`), and its element children in document order. -/
inductive Dom where
  | node (id : Nat) (tag : String) (uiId : String) (inl : Styles) (base : Styles)
      (kids : List Dom)
deriving Repr

def Dom.id : Dom → Nat
  | .node i _ _ _ _ _ => i

def Dom.tag : Dom → String
  | .node _ t _ _ _ _ => t

def Dom.uiId : Dom → String
  | .node _ _ u _ _ _ => u

def Dom.inl : Dom → Styles
  | .node _ _ _ s _ _ => s

def Dom.base : Dom → Styles
  | .node _ _ _ _ b _ => b

def Dom.kids : Dom → List Dom
  | .node _ _ _ _ _ k => k

/-- Replace the child list of an element. -/
def Dom.withKids (d : Dom) (ks : List Dom) : Dom :=
  .node d.id d.tag d.uiId d.inl d.base ks

/-- Apply a function to the inline styles of this element only. -/
def Dom.mapInl (f : Styles → Styles) (d : Dom) : Dom :=
  .node d.id d.tag d.uiId (f d.inl) d.base d.kids

mutual

/-- Every element identity occurring in a subtree. -/
def domIds : Dom → List Nat
  | .node i _ _ _ _ kids => i :: forestIds kids

/-- Every element identity occurring in a forest. -/
def forestIds : List Dom → List Nat
  | [] => []
  | d :: ds => domIds d ++ forestIds ds

end

mutual

/-- Mutate the inline styles of the element with identity `i`,
wherever it lives in the tree: the model of writing to
`element.style` through a held JavaScript reference. -/
def updStyle (i : Nat) (f : Styles → Styles) : Dom → Dom
  | .node j t u inl base kids =>
    .node j t u (if j = i then f inl else inl) base (updStyleL i f kids)

/-- `updStyle` over a forest. -/
def updStyleL (i : Nat) (f : Styles → Styles) : List Dom → List Dom
  | [] => []
  | d :: ds => updStyle i f d :: updStyleL i f ds

end

/-- `parent.insertBefore(w, anchor)` restricted to a child list:
insert `w` immediately before the element with identity `anchor`. -/
def insertBeforeId (anchor : Nat) (w : Dom) : List Dom → List Dom
  | [] => []
  | d :: ds => if d.id = anchor then w :: d :: ds else d :: insertBeforeId anchor w ds

/-- Detach the element with identity `i` from a child list. -/
def removeId (i : Nat) : List Dom → List Dom
  | [] => []
  | d :: ds => if d.id = i then ds else d :: removeId i ds

/-- Look up a direct child by identity. -/
def getById (i : Nat) : List Dom → Option Dom
  | [] => none
  | d :: ds => if d.id = i then some d else getById i ds

/-- Apply `f` to the child list of the direct child with identity `i`. -/
def updKidsTop (i : Nat) (f : List Dom → List Dom) : List Dom → List Dom
  | [] => []
  | d :: ds =>
    if d.id = i then d.withKids (f d.kids) :: ds else d :: updKidsTop i f ds

/-- `wrapper.appendChild(el)` where `el` and the wrapper are both
direct children of the target: detach `el` from the target and append
it to the wrapper's child list. -/
def appendIntoWrapper (wrapperId childId : Nat) (kids : List Dom) : List Dom :=
  match getById childId kids with
  | none => kids
  | some c => updKidsTop wrapperId (fun ks => ks ++ [c]) (removeId childId kids)

/-- `getComputedStyle(el).p`: the inline value wins when set,
otherwise the host stylesheet's value shows through. -/
def Dom.computed (sel : Styles → String) (d : Dom) : String :=
  if sel d.inl ≠ "" then sel d.inl else sel d.base

/-! ## Configuration model (`src/config/defaults.js`)

A user-supplied configuration object may omit fields, so every field
is an `Option`; JavaScript number semantics on possibly-absent fields
(`undefined < 20` is `false`, `x || d` falls back on falsy `x`) are
made explicit below.  The `presets` table is pure data used only by
`applyPreset`, which no claim touches, so it is not carried. -/

structure JsConfig where
  modalWidth : Option ℚ := none
  modalHeight : Option ℚ := none
  modalLeft : Option ℚ := none
  modalTop : Option ℚ := none
  transparentBackground : Option Bool := none
  showDocumentation : Option Bool := none
  documentationPosition : Option String := none
  editorProportion : Option ℚ := none
  documentationProportion : Option ℚ := none
  editorFontSize : Option ℚ := none
  editorLineHeight : Option ℚ := none
  editorFontFamily : Option String := none
  editorTheme : Option String := none
  showIndentGuides : Option Bool := none
  indentGuideStyle : Option String := none
  highlightActiveIndent : Option Bool := none
deriving Repr, DecidableEq

/-- A fully-populated configuration, as produced by `mergeConfig`
and as stored by `StorageManager`. -/
structure MergedConfig where
  modalWidth : ℚ
  modalHeight : ℚ
  modalLeft : ℚ
  modalTop : ℚ
  transparentBackground : Bool
  showDocumentation : Bool
  documentationPosition : String
  editorProportion : ℚ
  documentationProportion : ℚ
  editorFontSize : ℚ
  editorLineHeight : ℚ
  editorFontFamily : String
  editorTheme : String
  showIndentGuides : Bool
  indentGuideStyle : String
  highlightActiveIndent : Bool
deriving Repr, DecidableEq

def DEFAULT_CONFIG : MergedConfig where
  modalWidth := 95
  modalHeight := 95
  modalLeft := 50
  modalTop := 50
  transparentBackground := false
  showDocumentation := true
  documentationPosition := "right"
  editorProportion := 66
  documentationProportion := 34
  editorFontSize := 14
  editorLineHeight := 3/2
  editorFontFamily := "monospace"
  editorTheme := "light"
  showIndentGuides := true
  indentGuideStyle := "dotted"
  highlightActiveIndent := true

/-- View a stored full configuration as a plain config object (every
field present), as happens when it is passed back through
`mergeConfig` or `validateConfig`. -/
def MergedConfig.toJs (c : MergedConfig) : JsConfig where
  modalWidth := some c.modalWidth
  modalHeight := some c.modalHeight
  modalLeft := some c.modalLeft
  modalTop := some c.modalTop
  transparentBackground := some c.transparentBackground
  showDocumentation := some c.showDocumentation
  documentationPosition := some c.documentationPosition
  editorProportion := some c.editorProportion
  documentationProportion := some c.documentationProportion
  editorFontSize := some c.editorFontSize
  editorLineHeight := some c.editorLineHeight
  editorFontFamily := some c.editorFontFamily
  editorTheme := some c.editorTheme
  showIndentGuides := some c.showIndentGuides
  indentGuideStyle := some c.indentGuideStyle
  highlightActiveIndent := some c.highlightActiveIndent

/-- JavaScript `x < c` on a possibly-undefined number: comparing
`undefined` yields `false`. -/
def jsLtOpt (x : Option ℚ) (c : ℚ) : Bool :=
  match x with
  | some v => decide (v < c)
  | none => false

/-- JavaScript `x > c` on a possibly-undefined number. -/
def jsGtOpt (x : Option ℚ) (c : ℚ) : Bool :=
  match x with
  | some v => decide (v > c)
  | none => false

/-- JavaScript truthiness of a possibly-undefined number
(`0` and `undefined` are falsy). -/
def truthyNum (x : Option ℚ) : Bool :=
  match x with
  | some v => decide (v ≠ 0)
  | none => false

/-- JavaScript truthiness of a possibly-undefined string
(`""` and `undefined` are falsy). -/
def truthyStr (x : Option String) : Bool :=
  match x with
  | some s => decide (s ≠ "")
  | none => false

/-- `list.includes(x)` where `x` may be undefined. -/
def includesOpt (l : List String) (x : Option String) : Bool :=
  match x with
  | some s => l.contains s
  | none => false

def validPositions : List String := ["left", "right", "top", "bottom", "none"]

def validFonts : List String :=
  ["monospace", "fira-code", "jetbrains-mono", "source-code-pro", "opendyslexic"]

def validThemes : List String :=
  ["light", "dark", "sepia", "high-contrast", "protanopia", "deuteranopia", "tritanopia"]

def validIndentStyles : List String := ["solid", "dotted", "dashed"]

/-- `validateConfig(config)` from `defaults.js`: the early-return
chain of range and enum checks.  The checks on `editorFontSize`,
`editorLineHeight`, `editorFontFamily`, `editorTheme` and
`indentGuideStyle` only run when the field is truthy. -/
def validateConfig : Option JsConfig → Bool
  | none => false
  | some c =>
    if jsLtOpt c.modalWidth 20 || jsGtOpt c.modalWidth 98 then false
    else if jsLtOpt c.modalHeight 20 || jsGtOpt c.modalHeight 98 then false
    else if jsLtOpt c.modalLeft 0 || jsGtOpt c.modalLeft 100 then false
    else if jsLtOpt c.modalTop 0 || jsGtOpt c.modalTop 100 then false
    else if !(includesOpt validPositions c.documentationPosition) then false
    else if jsLtOpt c.editorProportion 30 || jsGtOpt c.editorProportion 80 then false
    else if truthyNum c.editorFontSize &&
        (jsLtOpt c.editorFontSize 10 || jsGtOpt c.editorFontSize 24) then false
    else if truthyNum c.editorLineHeight &&
        (jsLtOpt c.editorLineHeight 1 || jsGtOpt c.editorLineHeight (5/2)) then false
    else if truthyStr c.editorFontFamily &&
        !(includesOpt validFonts c.editorFontFamily) then false
    else if truthyStr c.editorTheme &&
        !(includesOpt validThemes c.editorTheme) then false
    else if truthyStr c.indentGuideStyle &&
        !(includesOpt validIndentStyles c.indentGuideStyle) then false
    else true

/-- `mergeConfig(userConfig)`: spread the defaults, spread the user
config over them, then overwrite `documentationProportion` with
`100 - (userConfig.editorProportion || DEFAULT_CONFIG.editorProportion)`. -/
def mergeConfig (c : JsConfig) : MergedConfig where
  modalWidth := c.modalWidth.getD DEFAULT_CONFIG.modalWidth
  modalHeight := c.modalHeight.getD DEFAULT_CONFIG.modalHeight
  modalLeft := c.modalLeft.getD DEFAULT_CONFIG.modalLeft
  modalTop := c.modalTop.getD DEFAULT_CONFIG.modalTop
  transparentBackground := c.transparentBackground.getD DEFAULT_CONFIG.transparentBackground
  showDocumentation := c.showDocumentation.getD DEFAULT_CONFIG.showDocumentation
  documentationPosition := c.documentationPosition.getD DEFAULT_CONFIG.documentationPosition
  editorProportion := c.editorProportion.getD DEFAULT_CONFIG.editorProportion
  documentationProportion :=
    100 - (if truthyNum c.editorProportion
           then c.editorProportion.getD 0
           else DEFAULT_CONFIG.editorProportion)
  editorFontSize := c.editorFontSize.getD DEFAULT_CONFIG.editorFontSize
  editorLineHeight := c.editorLineHeight.getD DEFAULT_CONFIG.editorLineHeight
  editorFontFamily := c.editorFontFamily.getD DEFAULT_CONFIG.editorFontFamily
  editorTheme := c.editorTheme.getD DEFAULT_CONFIG.editorTheme
  showIndentGuides := c.showIndentGuides.getD DEFAULT_CONFIG.showIndentGuides
  indentGuideStyle := c.indentGuideStyle.getD DEFAULT_CONFIG.indentGuideStyle
  highlightActiveIndent := c.highlightActiveIndent.getD DEFAULT_CONFIG.highlightActiveIndent

/-! ## Storage manager (`src/core/storage.js`)

`chrome.storage.local` is modelled as an optional stored full config
plus two flags saying whether the underlying `get`/`set` calls throw;
throwing calls are `Except` values and the `try`/`catch` blocks of
`getConfig`/`saveConfig` are the explicit `match`es on them. -/

structure StorageState where
  stored : Option MergedConfig := none
  getThrows : Bool := false
  setThrows : Bool := false
deriving Repr, DecidableEq

def storageGet (s : StorageState) : Except Unit (Option MergedConfig) :=
  if s.getThrows then .error () else .ok s.stored

def storageSet (c : MergedConfig) (s : StorageState) : Except Unit StorageState :=
  if s.setThrows then .error () else .ok { s with stored := some c }

/-- Body of the `try` block of `StorageManager.saveConfig`.
`notifyConfigChange` catches every error it can raise and does not
touch storage, so it contributes nothing here. -/
def saveConfigTry (c : Option JsConfig) (s : StorageState) :
    Except Unit (Bool × StorageState) :=
  if validateConfig c = false then .ok (false, s)
  else
    match c with
    | none => .ok (false, s)
    | some cfg =>
      match storageSet (mergeConfig cfg) s with
      | .error e => .error e
      | .ok s1 => .ok (true, s1)

/-- `StorageManager.saveConfig`: validate, merge, persist; any
exception is caught and turned into `false` with storage unchanged. -/
def saveConfig (c : Option JsConfig) (s : StorageState) : Bool × StorageState :=
  match saveConfigTry c s with
  | .ok r => r
  | .error _ => (false, s)

/-- Body of the `try` block of `StorageManager.getConfig`. -/
def getConfigTry (s : StorageState) : Except Unit (MergedConfig × StorageState) :=
  match storageGet s with
  | .error e => .error e
  | .ok none =>
    let r := saveConfig (some DEFAULT_CONFIG.toJs) s
    .ok (DEFAULT_CONFIG, r.2)
  | .ok (some storedConfig) => .ok (mergeConfig storedConfig.toJs, s)

/-- `StorageManager.getConfig`: on any exception fall back to the
defaults with storage untouched. -/
def getConfig (s : StorageState) : MergedConfig × StorageState :=
  match getConfigTry s with
  | .ok r => r
  | .error _ => (DEFAULT_CONFIG, s)

/-! ## Style manager (`StyleManager` in `defaults.js`)

Only the parts the claims touch are embedded: `resetStyles` (used by
`LayoutManager.resetLayout`) and the indent-level scan
`updateIndentLevels`.  The font/theme inline styling of the formula
editor element is carried at the level of that element's typography
style record in the dialog-processing model further down. -/

/-- `StyleManager.resetStyles(element)`: clear exactly the listed
style properties (note: `boxSizing` and `gap` are not in the list). -/
def resetStyles (s : Styles) : Styles :=
  { s with
    display := "", flex := "", overflow := "", order := "",
    borderLeft := "", borderRight := "", borderTop := "", borderBottom := "",
    flexDirection := "", height := "", width := "", maxWidth := "", maxHeight := "" }

/-- The characters matched by the JavaScript regex class `\s`
(restricted to ASCII, which is all the editor produces). -/
def jsWhitespaceChar (ch : Char) : Bool :=
  ch = ' ' || ch = '\t' || ch = '\n' || ch = '\r' || ch = '\x0b' || ch = '\x0c'

/-- Length of `text.match(/^(\s*)/)[0]`: the number of leading
whitespace characters. -/
def leadingWhitespaceCount : List Char → Nat
  | [] => 0
  | ch :: rest => if jsWhitespaceChar ch then leadingWhitespaceCount rest + 1 else 0

/-- One editor line (`.kr-line` / `.kr-paragraph`): the text content
of its first `.kr-span` child when it has one, and its two indent
marker attributes (`indentLevel = none` models an absent
`data-indent-level` attribute). -/
structure EditorLine where
  firstSpanText : Option String := none
  indentLevel : Option Nat := none
  indentGuides : Bool := false
deriving Repr, DecidableEq

/-- The body of the per-line loop of
`StyleManager.updateIndentLevels`: skip lines without a first span;
otherwise compute `indentLevel = Math.floor(leadingSpaces / 2)` and
attach the markers when `0 < indentLevel && indentLevel <= 8`, else
remove both markers. -/
def updateIndentLine (line : EditorLine) : EditorLine :=
  match line.firstSpanText with
  | none => line
  | some text =>
    let leadingSpaces := leadingWhitespaceCount text.data
    let indentLevel := leadingSpaces / 2
    if 0 < indentLevel ∧ indentLevel ≤ 8 then
      { line with indentLevel := some indentLevel, indentGuides := true }
    else
      { line with indentLevel := none, indentGuides := false }

/-- `StyleManager.updateIndentLevels()`: rescan the lines of every
`.kr-slate-editor` on the page. -/
def updateIndentLevels (editors : List (List EditorLine)) : List (List EditorLine) :=
  editors.map (fun lines => lines.map updateIndentLine)

/-! ## DOM selector (`DOMSelector` in `defaults.js`) -/

/-- The structural query
`rootDiv.querySelector(":scope > div:nth-child(3) > div:last-child > div:last-child")`:
the third element child of the root provided it is a `div`, then its
last element child provided it is a `div`, then that node's last
element child provided it is a `div`. -/
def structuralQuery (rootDiv : Dom) : Option Dom :=
  match rootDiv.kids.get? 2 with
  | none => none
  | some c3 =>
    if c3.tag ≠ "div" then none
    else
      match c3.kids.getLast? with
      | none => none
      | some l1 =>
        if l1.tag ≠ "div" then none
        else
          match l1.kids.getLast? with
          | none => none
          | some l2 => if l2.tag ≠ "div" then none else some l2

/-- `rootDiv.querySelector("div")`: the first `div` strictly below
the root in document (preorder) order. -/
def firstDivInForest : List Dom → Option Dom
  | [] => none
  | .node i t u inl base kids :: ks =>
    if t = "div" then some (.node i t u inl base kids)
    else
      match firstDivInForest kids with
      | some r => some r
      | none => firstDivInForest ks

/-- `DOMSelector.findTargetContainerFallback(rootDiv)`: descend from
the first `div` found anywhere below the root to its third child,
that child's last element child, and that node's last element child
(`null` propagation mirrored by `Option`). -/
def findTargetContainerFallback (rootDiv : Dom) : Option Dom :=
  match firstDivInForest rootDiv.kids with
  | none => none
  | some firstLevelDiv =>
    let secondLevelDivs := firstLevelDiv.kids
    if secondLevelDivs.length < 3 then none
    else
      match secondLevelDivs.get? 2 with
      | none => none
      | some thirdDiv =>
        match thirdDiv.kids.getLast? with
        | none => none
        | some lastChild1 => lastChild1.kids.getLast?

/-! ## Layout manager (`LayoutManager` in `defaults.js`)

The layout functions are state transformers on the target container's
child forest.  A freshly created wrapper element gets an identity
(`wrapperId`) supplied by the caller, the model of
`document.createElement` returning a new object. -/

def borderColor : String := "1px solid rgb(240, 240, 240)"

/-- The wrapper element right after `createFlexWrapper` assigns its
creation-time styles (`flex-direction` is set in the position branch
before anything observes the element, so it is filled here). -/
def newFlexWrapper (wrapperId : Nat) (dir : String) : Dom :=
  .node wrapperId "div" ""
    { display := "flex", width := "100%", height := "100%",
      boxSizing := "border-box", gap := "0px", flexDirection := dir }
    {} []

mutual

/-- Does any element of the subtree carry `data-coda-ui-id = u`? -/
def domHasUiId (u : String) : Dom → Bool
  | .node _ _ v _ _ kids => v = u || forestHasUiId u kids

/-- `domHasUiId` over a forest. -/
def forestHasUiId (u : String) : List Dom → Bool
  | [] => false
  | d :: ds => domHasUiId u d || forestHasUiId u ds

end

/-- The `isFormulaEditor` test of `LayoutManager.hideDocumentation`:
`child.querySelector('[data-coda-ui-id="formula-editor"]')` looks at
strict descendants, `child.dataset.codaUiId` at the child itself. -/
def containsFormulaEditor (child : Dom) : Bool :=
  forestHasUiId "formula-editor" child.kids || child.uiId == "formula-editor"

/-- `LayoutManager.hideDocumentation(kids)`: hide every child that
neither contains nor is the formula editor. -/
def hideDocumentation (kids : List Dom) : List Dom :=
  kids.map fun child =>
    if !containsFormulaEditor child then
      child.mapInl (fun s => { s with display := "none" })
    else child

/-- The loop `for (i = 1; i < kids.length - 1; i++) hide(kids[i])`
applied to the tail of the snapshot: hide everything except the last
element. -/
def hideButLast : List Dom → List Dom
  | [] => []
  | [d] => [d]
  | d :: rest => d.mapInl (fun s => { s with display := "none" }) :: hideButLast rest

/-- The whole hide loop: the element at index 0 and the last element
are kept, every index in between is hidden. -/
def hideIntermediates : List Dom → List Dom
  | [] => []
  | first :: rest => first :: hideButLast rest

/-- `LayoutManager.createFlexWrapper(kids, mainChild, sideChild, config)`.
`kids` is `Array.from(target.children)` at entry, so it is also the
current child list; `mainId`/`sideId` are the identities of the held
`mainChild`/`sideChild` references. -/
def createFlexWrapper (kids : List Dom) (mainId sideId wrapperId : Nat)
    (config : MergedConfig) : List Dom :=
  -- hide intermediate children (if there are more than 2)
  let st :=
    if kids.length > 2 then hideIntermediates kids else kids
  -- make sure the side child is visible and stretched
  let st := updStyleL sideId (fun s => { s with display := "" }) st
  let st := updStyleL sideId (fun s => { s with height := "100%" }) st
  let position := config.documentationPosition
  let st :=
    if position = "left" ∨ position = "right" then
      if position = "left" then
        -- doc on the left, editor on the right
        let st := updStyleL sideId (fun s => { s with borderRight := borderColor }) st
        let st := updStyleL sideId (fun s => { s with borderLeft := "none" }) st
        let st := insertBeforeId mainId (newFlexWrapper wrapperId "row") st
        let st := appendIntoWrapper wrapperId sideId st
        appendIntoWrapper wrapperId mainId st
      else
        -- editor on the left, doc on the right
        let st := updStyleL sideId (fun s => { s with borderLeft := borderColor }) st
        let st := updStyleL sideId (fun s => { s with borderRight := "none" }) st
        let st := insertBeforeId mainId (newFlexWrapper wrapperId "row") st
        let st := appendIntoWrapper wrapperId mainId st
        appendIntoWrapper wrapperId sideId st
    else
      if position = "top" then
        -- doc on top, editor at the bottom
        let st := updStyleL sideId (fun s => { s with borderBottom := borderColor }) st
        let st := updStyleL sideId (fun s => { s with borderTop := "none" }) st
        let st := insertBeforeId mainId (newFlexWrapper wrapperId "column") st
        let st := appendIntoWrapper wrapperId sideId st
        appendIntoWrapper wrapperId mainId st
      else
        -- editor on top, doc at the bottom
        let st := updStyleL sideId (fun s => { s with borderTop := borderColor }) st
        let st := updStyleL sideId (fun s => { s with borderBottom := "none" }) st
        let st := insertBeforeId mainId (newFlexWrapper wrapperId "column") st
        let st := appendIntoWrapper wrapperId mainId st
        appendIntoWrapper wrapperId sideId st
  -- apply flex sizing based on proportions
  let st := updStyleL mainId
    (fun s => { s with flex := toString config.editorProportion ++ " 1 0" }) st
  let st := updStyleL sideId
    (fun s => { s with flex := toString config.documentationProportion ++ " 1 0" }) st
  updStyleL sideId (fun s => { s with overflow := "auto" }) st

mutual

/-- First pass of `LayoutManager.adjustSideChildLayout`: every
element whose computed `max-height` is truthy and not `"none"` gets
an inline `max-height: none`. -/
def clearMaxHeights : Dom → Dom
  | .node i t u inl base kids =>
    let c := Dom.computed Styles.maxHeight (.node i t u inl base kids)
    let inl2 := if c ≠ "" ∧ c ≠ "none" then { inl with maxHeight := "none" } else inl
    .node i t u inl2 base (clearMaxHeightsL kids)

/-- `clearMaxHeights` over a forest. -/
def clearMaxHeightsL : List Dom → List Dom
  | [] => []
  | d :: ds => clearMaxHeights d :: clearMaxHeightsL ds

end

/-- Is this element the `grandparent` of some
`data-coda-ui-id="result-list-item"` element, i.e. three levels above
it, as computed by `item.parentElement?.parentElement?.parentElement`? -/
def hasResultItemAt3 (d : Dom) : Bool :=
  d.kids.any fun c1 => c1.kids.any fun c2 => c2.kids.any fun item =>
    item.uiId == "result-list-item"

mutual

/-- Second pass of `adjustSideChildLayout`: the grandparent container
of every result-list item is forced to full height. -/
def forceResultHeights : Dom → Dom
  | .node i t u inl base kids =>
    let inl2 :=
      if hasResultItemAt3 (.node i t u inl base kids) then { inl with height := "100%" }
      else inl
    .node i t u inl2 base (forceResultHeightsL kids)

/-- `forceResultHeights` over a forest. -/
def forceResultHeightsL : List Dom → List Dom
  | [] => []
  | d :: ds => forceResultHeights d :: forceResultHeightsL ds

end

/-- `LayoutManager.adjustSideChildLayout(sideRoot)`: clear inherited
`max-height` constraints below the side root, then stretch the
containers that hold result-list items.  (Items fewer than three
levels deep would have their grandparent outside the side subtree;
that escape is outside the modelled scope and outside every claim.) -/
def adjustSideChildLayout (sideRoot : Dom) : Dom :=
  forceResultHeights (sideRoot.withKids (clearMaxHeightsL sideRoot.kids))

mutual

/-- Apply `f` to the element with identity `i`, wherever it lives in
the tree (the model of calling a method on a held reference). -/
def updNode (i : Nat) (f : Dom → Dom) : Dom → Dom
  | .node j t u inl base kids =>
    if j = i then f (.node j t u inl base kids)
    else .node j t u inl base (updNodeL i f kids)

/-- `updNode` over a forest. -/
def updNodeL (i : Nat) (f : Dom → Dom) : List Dom → List Dom
  | [] => []
  | d :: ds => updNode i f d :: updNodeL i f ds

end

/-- The side-child mutation observers created by
`LayoutManager.observeSideChild`, by observed element identity.  The
source keeps each observer only in a local variable of
`observeSideChild`. -/
structure LMState where
  observers : List Nat := []
deriving Repr, DecidableEq

/-- `LayoutManager.observeSideChild(sideChild)`: create a new
observer on the side child.  Nothing records it for later
disconnection. -/
def observeSideChild (lm : LMState) (sideChildId : Nat) : LMState :=
  { lm with observers := lm.observers ++ [sideChildId] }

/-- `LayoutManager.showDocumentation(kids, formulaDiv, config)`. -/
def showDocumentation (lm : LMState) (kids : List Dom) (mainId wrapperId : Nat)
    (config : MergedConfig) : List Dom × LMState :=
  if kids.length < 2 then (kids, lm)
  else
    match kids.getLast? with
    | none => (kids, lm)
    | some sideChild =>
      let st := createFlexWrapper kids mainId sideChild.id wrapperId config
      let st := updNodeL sideChild.id adjustSideChildLayout st
      (st, observeSideChild lm sideChild.id)

/-- `LayoutManager.applyLayout(kids, formulaDiv, config)`. -/
def applyLayout (lm : LMState) (kids : List Dom) (mainId wrapperId : Nat)
    (config : MergedConfig) : List Dom × LMState :=
  if kids.length < 2 then (kids, lm)
  else if !config.showDocumentation then (hideDocumentation kids, lm)
  else showDocumentation lm kids mainId wrapperId config

/-- The structural fingerprint `resetLayout` uses to recognise a
wrapper it created: flex display (inline or computed), a row or
column flex direction (inline or computed), and at least one child. -/
def isWrapperFingerprint (d : Dom) : Bool :=
  let hasFlexDisplay :=
    d.inl.display == "flex" || Dom.computed Styles.display d == "flex"
  let hasFlexDirection :=
    d.inl.flexDirection == "row" || d.inl.flexDirection == "column" ||
    Dom.computed Styles.flexDirection d == "row" ||
    Dom.computed Styles.flexDirection d == "column"
  hasFlexDisplay && hasFlexDirection && decide (d.kids.length > 0)

/-- `LayoutManager.resetLayout(target)`: hoist the children of every
fingerprinted direct child to the end of the target
(`target.appendChild(div.firstChild)` in a loop appends them there),
remove the emptied wrapper, reset every remaining child's styles,
then clear the target's own `display`, `flex-direction` and
`height`. -/
def resetLayout (target : Dom) : Dom :=
  let allDivs := target.kids
  let kids1 := allDivs.foldl
    (fun cur div =>
      if isWrapperFingerprint div then removeId div.id cur ++ div.kids else cur)
    allDivs
  let kids2 := kids1.map (Dom.mapInl resetStyles)
  (target.mapInl fun s => { s with display := "", flexDirection := "", height := "" }).withKids
    kids2

/-! ## Editor styling state (`StyleManager.applyEditorStyles`)

The two global `<style>` elements have fixed ids, so re-injection
replaces them; each is modelled by the data interpolated into its
fixed CSS template.  The typography and theme inline styles of the
formula-editor element are a small record of their own
(`applyToEditorElements` repeats the same three properties on
descendant editor elements and adds no separately-observable state). -/

/-- Data interpolated into the `#coda-formula-editor-styles` sheet. -/
structure EditorSheet where
  fontFamily : String
  fontSize : ℚ
  lineHeight : ℚ
deriving Repr, DecidableEq

/-- Data interpolated into the `#coda-indent-guides-styles` sheet. -/
structure IndentSheet where
  borderStyle : String
  highlight : Bool
deriving Repr, DecidableEq

/-- Inline styles `applyInlineStyles` / `applyTheme` set on the
formula-editor element. -/
structure EditorStyleState where
  fontSize : String := ""
  lineHeight : String := ""
  fontFamily : String := ""
  backgroundColor : String := ""
  color : String := ""
deriving Repr, DecidableEq

/-- Document-level styling state: the two injected sheets, the indent
observer, and the lines of every `.kr-slate-editor` on the page. -/
structure DocStyleState where
  editorSheet : Option EditorSheet := none
  indentSheet : Option IndentSheet := none
  indentObserverOn : Bool := false
  editors : List (List EditorLine) := []
deriving Repr, DecidableEq

/-- `StyleManager.fontMap` as an association list. -/
def fontMap : List (String × String) :=
  [("monospace", "monospace"),
   ("fira-code", "\"Fira Code\", \"Cascadia Code\", monospace"),
   ("jetbrains-mono", "\"JetBrains Mono\", monospace"),
   ("source-code-pro", "\"Source Code Pro\", monospace"),
   ("opendyslexic", "\"OpenDyslexic\", \"OpenDyslexic3\", \"Comic Sans MS\", sans-serif")]

/-- `this.fontMap[config.editorFontFamily] || "monospace"`. -/
def resolveFont (fam : String) : String := ((fontMap.lookup fam).getD "monospace")

/-- The `themes` table of `applyTheme`: background and text color. -/
def themeTable : List (String × (String × String)) :=
  [("light", ("#ffffff", "#000000")),
   ("dark", ("#1e1e1e", "#d4d4d4")),
   ("sepia", ("#f4ecd8", "#5b4636")),
   ("high-contrast", ("#000000", "#ffffff")),
   ("protanopia", ("#f5f5f0", "#005a9c")),
   ("deuteranopia", ("#f0f0f5", "#8b4513")),
   ("tritanopia", ("#fff5f0", "#c41e3a"))]

/-- The `styleMap` of `applyIndentGuides`:
`styleMap[config.indentGuideStyle] || "dotted"`. -/
def resolveIndentStyle (st : String) : String :=
  (([("solid", "solid"), ("dotted", "dotted"), ("dashed", "dashed")].lookup st).getD
    "dotted")

/-- `StyleManager.injectGlobalStyles(config)`: replace the single
font sheet (`fontSize`/`lineHeight` fall back on falsy values). -/
def injectGlobalStyles (config : MergedConfig) (g : DocStyleState) : DocStyleState :=
  { g with
    editorSheet := some
      { fontFamily := resolveFont config.editorFontFamily
        fontSize := if config.editorFontSize ≠ 0 then config.editorFontSize else 14
        lineHeight := if config.editorLineHeight ≠ 0 then config.editorLineHeight else 3/2 } }

/-- `StyleManager.applyInlineStyles(formulaDiv, config)`: set each
typography property when its config field is truthy. -/
def applyInlineStyles (config : MergedConfig) (e : EditorStyleState) : EditorStyleState :=
  let e := if config.editorFontSize ≠ 0 then
      { e with fontSize := toString config.editorFontSize ++ "px" } else e
  let e := if config.editorLineHeight ≠ 0 then
      { e with lineHeight := toString config.editorLineHeight } else e
  if config.editorFontFamily ≠ "" then
    { e with fontFamily := resolveFont config.editorFontFamily } else e

/-- `StyleManager.applyTheme(formulaDiv, config)`: unknown themes
fall back to `light`. -/
def applyTheme (config : MergedConfig) (e : EditorStyleState) : EditorStyleState :=
  let theme := (themeTable.lookup config.editorTheme).getD ("#ffffff", "#000000")
  { e with backgroundColor := theme.1, color := theme.2 }

/-- Strip both indent marker attributes from a line. -/
def clearIndentMarkers (line : EditorLine) : EditorLine :=
  { line with indentLevel := none, indentGuides := false }

/-- `StyleManager.applyIndentGuides(config)`: when disabled, remove
the sheet, stop the observer and strip all markers; when enabled,
(re-)inject the sheet, rescan the indent levels and observe. -/
def applyIndentGuides (config : MergedConfig) (g : DocStyleState) : DocStyleState :=
  if !config.showIndentGuides then
    { g with
      indentSheet := none
      indentObserverOn := false
      editors := g.editors.map (List.map clearIndentMarkers) }
  else
    { g with
      indentSheet := some
        { borderStyle := resolveIndentStyle config.indentGuideStyle,
          highlight := config.highlightActiveIndent },
      editors := updateIndentLevels g.editors,
      indentObserverOn := true }

/-- `StyleManager.applyEditorStyles(formulaDiv, config)` for a
present `formulaDiv`. -/
def applyEditorStyles (config : MergedConfig) (g : DocStyleState)
    (e : EditorStyleState) : DocStyleState × EditorStyleState :=
  let g := injectGlobalStyles config g
  let e := applyInlineStyles config e
  let e := applyTheme config e
  let g := applyIndentGuides config g
  (g, e)

/-! ## Dialog processor and watcher
(`DialogProcessor` / `ModalCustomizer` in `defaults.js`) -/

/-- The target container as the dialog processor sees it: its two
`data-` markers, its own `height` inline style, and its child
forest. -/
structure TargetState where
  codaFormulaTarget : Bool := false
  layoutPatched : Bool := false
  heightStyle : String := ""
  kids : List Dom := []
deriving Repr

/-- The dialog's root `div`: the geometry styles `applySize` writes,
the settings-button presence, and the located target container
(`none` when the structural descent finds nothing). -/
structure RootDivState where
  width : String := ""
  height : String := ""
  maxWidth : String := ""
  maxHeight : String := ""
  position : String := ""
  left : String := ""
  top : String := ""
  transform : String := ""
  hasSettingsBtn : Bool := false
  target : Option TargetState := none
deriving Repr

/-- One dialog: its identity (the `WeakSet` key), its background
style, the identity of its formula-editor element when
`findFormulaEditor` finds one, that element's typography styles, and
its root div when `findRootDiv` finds one. -/
structure DialogState where
  id : Nat
  background : String := ""
  formulaEditorId : Option Nat := none
  editorStyles : EditorStyleState := {}
  root : Option RootDivState := none
deriving Repr

/-- `ModalSizeManager.applySize(rootDiv, config, dialog)`. -/
def applySize (config : MergedConfig) (r : RootDivState) : RootDivState :=
  { r with
    width := toString config.modalWidth ++ "%"
    height := toString config.modalHeight ++ "%"
    maxWidth := toString config.modalWidth ++ "%"
    maxHeight := toString config.modalHeight ++ "%"
    position := "absolute"
    left := toString config.modalLeft ++ "%"
    top := toString config.modalTop ++ "%"
    transform := "translate(-" ++ toString config.modalLeft ++ "%, -" ++
      toString config.modalTop ++ "%)" }

/-- `DOMSelector.findTargetContainer` on a locatable container: a
marker hit returns it as-is; otherwise the structural query finds it
and stamps the `data-coda-formula-target` marker. -/
def findTargetContainerM (t : TargetState) : TargetState :=
  if t.codaFormulaTarget then t else { t with codaFormulaTarget := true }

/-- `DialogProcessor.processDialog(dialog, formulaDiv)`.  `fid` is
the identity of the found formula editor, `g` the document styling
state, `nid` the fresh identity the next created wrapper element
would get, `lm` the layout-manager observer state. -/
def processDialog (config : MergedConfig) (d : DialogState) (fid : Nat)
    (g : DocStyleState) (nid : Nat) (lm : LMState) :
    DialogState × DocStyleState × Nat × LMState :=
  match d.root with
  | none => (d, g, nid, lm)
  | some root =>
    -- apply modal size and position
    let root := applySize config root
    -- apply background transparency
    let bg := if config.transparentBackground then "transparent" else ""
    -- add the settings button (guarded by its own presence query)
    let root := { root with hasSettingsBtn := true }
    -- apply editor styles
    let ge := applyEditorStyles config g d.editorStyles
    -- handle layout
    match root.target with
    | none => ({ d with background := bg, editorStyles := ge.2, root := some root },
        ge.1, nid, lm)
    | some t0 =>
      let t1 := findTargetContainerM t0
      -- ensure we process this container only once
      if t1.layoutPatched then
        ({ d with
           background := bg
           editorStyles := ge.2
           root := some { root with target := some t1 } }, ge.1, nid, lm)
      else
        let t2 := { t1 with layoutPatched := true, heightStyle := "auto" }
        let r := applyLayout lm t2.kids fid nid config
        ({ d with
           background := bg
           editorStyles := ge.2
           root := some { root with target := some { t2 with kids := r.1 } } },
         ge.1, nid + 1, r.2)

/-- The watcher's whole mutable state: the dialogs on the page, the
processed `WeakSet` (by dialog identity), the document styling state,
the next fresh element identity and the layout-manager observers. -/
structure CustomizerState where
  dialogs : List DialogState := []
  processed : List Nat := []
  doc : DocStyleState := {}
  nextWrapperId : Nat := 1000
  lm : LMState := {}
deriving Repr

/-- Accumulator for the `dialogs.forEach` loop of `processDialogs`. -/
structure ScanAcc where
  dialogs : List DialogState
  processed : List Nat
  doc : DocStyleState
  nextWrapperId : Nat
  lm : LMState
deriving Repr

/-- One iteration of `ModalCustomizer.processDialogs`: skip dialogs
already in the processed set, skip (without marking) dialogs with no
formula editor, otherwise mark processed and delegate to
`processDialog`. -/
def processDialogsStep (config : MergedConfig) (acc : ScanAcc) (d : DialogState) :
    ScanAcc :=
  if acc.processed.contains d.id then { acc with dialogs := acc.dialogs ++ [d] }
  else
    match d.formulaEditorId with
    | none => { acc with dialogs := acc.dialogs ++ [d] }
    | some fid =>
      let r := processDialog config d fid acc.doc acc.nextWrapperId acc.lm
      { dialogs := acc.dialogs ++ [r.1], processed := acc.processed ++ [d.id],
        doc := r.2.1, nextWrapperId := r.2.2.1, lm := r.2.2.2 }

/-- `ModalCustomizer.processDialogs()`: one full scan over the
current dialogs. -/
def processDialogs (config : MergedConfig) (s : CustomizerState) : CustomizerState :=
  let r := s.dialogs.foldl (processDialogsStep config)
    ⟨[], s.processed, s.doc, s.nextWrapperId, s.lm⟩
  { dialogs := r.dialogs, processed := r.processed, doc := r.doc,
    nextWrapperId := r.nextWrapperId, lm := r.lm }

/-- `LayoutManager.resetLayout` on a located target container: the
target element itself carries only its `height` inline style among
the properties the extension ever writes on it. -/
def resetLayoutT (t : TargetState) : TargetState :=
  let r := resetLayout (Dom.node 0 "div" "" { height := t.heightStyle } {} t.kids)
  { t with heightStyle := r.inl.height, kids := r.kids }

/-- `DialogProcessor.resetDialog(dialog)`: clear the geometry inline
styles and the background, clear the layout marker and run
`resetLayout` on the target container when one is found.  The
side-panel observers are not in scope here: the source's
`resetDialog` has no reference to them. -/
def resetDialog (d : DialogState) : DialogState :=
  match d.root with
  | none => d
  | some root =>
    let root := { root with
      width := "", height := "", maxWidth := "", maxHeight := "",
      position := "", left := "", top := "", transform := "" }
    match root.target with
    | none => { d with background := "", root := some root }
    | some t0 =>
      let t1 := findTargetContainerM t0
      let t2 := { t1 with layoutPatched := false }
      { d with
        background := ""
        root := some { root with target := some (resetLayoutT t2) } }

/-- `ModalCustomizer.updateConfig(newConfig)`: reset every dialog,
clear the processed set, and reprocess everything with the new
configuration. -/
def updateConfig (newConfig : MergedConfig) (s : CustomizerState) : CustomizerState :=
  processDialogs newConfig
    { s with dialogs := s.dialogs.map resetDialog, processed := [] }

/-! ## Claim C1: layout round trip

Infrastructure: computation rules for the tree-update helpers over a
symbolic child forest. -/

theorem id_mapInl (f : Styles → Styles) (d : Dom) : (Dom.mapInl f d).id = d.id := rfl

theorem tag_mapInl (f : Styles → Styles) (d : Dom) : (Dom.mapInl f d).tag = d.tag := rfl

theorem uiId_mapInl (f : Styles → Styles) (d : Dom) : (Dom.mapInl f d).uiId = d.uiId := rfl

theorem inl_mapInl (f : Styles → Styles) (d : Dom) : (Dom.mapInl f d).inl = f d.inl := rfl

theorem base_mapInl (f : Styles → Styles) (d : Dom) : (Dom.mapInl f d).base = d.base := rfl

theorem kids_mapInl (f : Styles → Styles) (d : Dom) : (Dom.mapInl f d).kids = d.kids := rfl

/-- Rebuilding an element from its own projections gives it back. -/
theorem Dom.eta (d : Dom) : Dom.node d.id d.tag d.uiId d.inl d.base d.kids = d := by
  rcases d with ⟨⟩
  rfl

theorem mapInl_eq_self (f : Styles → Styles) (d : Dom) (h : f d.inl = d.inl) :
    d.mapInl f = d := by
  unfold Dom.mapInl
  rw [h, Dom.eta]

theorem domIds_eq (d : Dom) : domIds d = d.id :: forestIds d.kids := by
  rcases d with ⟨⟩
  rfl

theorem forestIds_cons (d : Dom) (l : List Dom) :
    forestIds (d :: l) = domIds d ++ forestIds l := rfl

theorem forestIds_append (l1 l2 : List Dom) :
    forestIds (l1 ++ l2) = forestIds l1 ++ forestIds l2 := by
  induction l1 with
  | nil => rfl
  | cons d ds ih => simp [forestIds, ih]

theorem domIds_mapInl (f : Styles → Styles) (d : Dom) :
    domIds (d.mapInl f) = domIds d := by
  rw [domIds_eq, domIds_eq, id_mapInl, kids_mapInl]

theorem forestIds_map_mapInl (f : Styles → Styles) (l : List Dom) :
    forestIds (l.map (Dom.mapInl f)) = forestIds l := by
  induction l with
  | nil => rfl
  | cons d ds ih => simp [forestIds, domIds_mapInl, ih]

theorem map_id_map_mapInl (f : Styles → Styles) (l : List Dom) :
    (l.map (Dom.mapInl f)).map Dom.id = l.map Dom.id := by
  induction l with
  | nil => rfl
  | cons d ds ih => simp [id_mapInl, ih]

/-- Top-level identities are among the forest identities. -/
theorem mem_forestIds_of_mem_map_id (x : Nat) :
    ∀ l : List Dom, x ∈ l.map Dom.id → x ∈ forestIds l := by
  intro l
  induction l with
  | nil => simp
  | cons d ds ih =>
    intro h
    rw [forestIds_cons, domIds_eq]
    rcases (by simpa using h : x = d.id ∨ x ∈ ds.map Dom.id) with h | h
    · simp [h]
    · simp [ih h]

/-- `updStyle` is the identity away from the addressed identity. -/
theorem updStyle_noop (i : Nat) (f : Styles → Styles) :
    ∀ d : Dom, i ∉ domIds d → updStyle i f d = d :=
  @Dom.rec (fun d => i ∉ domIds d → updStyle i f d = d)
    (fun l => i ∉ forestIds l → updStyleL i f l = l)
    (by
      intro j t u inl base kids ih h
      simp only [domIds, List.mem_cons, not_or] at h
      simp [updStyle, ih h.2, Ne.symm h.1])
    (by intro _; rfl)
    (by
      intro d ds ih1 ih2 h
      simp only [forestIds, List.mem_append, not_or] at h
      simp [updStyleL, ih1 h.1, ih2 h.2])

theorem updStyleL_noop (i : Nat) (f : Styles → Styles) :
    ∀ l : List Dom, i ∉ forestIds l → updStyleL i f l = l := by
  intro l
  induction l with
  | nil => intro _; rfl
  | cons d ds ih =>
    intro h
    simp only [forestIds, List.mem_append, not_or] at h
    simp [updStyleL, updStyle_noop i f d h.1, ih h.2]

/-- `updStyle` on the addressed element (whose subtree does not reuse
its identity) is exactly an inline-style update. -/
theorem updStyle_self (i : Nat) (f : Styles → Styles) (d : Dom)
    (hid : d.id = i) (hk : i ∉ forestIds d.kids) :
    updStyle i f d = d.mapInl f := by
  rcases d with ⟨j, t, u, inl, base, kids⟩
  simp only [Dom.id] at hid
  simp only [Dom.kids] at hk
  simp [updStyle, hid, updStyleL_noop i f kids hk, Dom.mapInl, Dom.id, Dom.tag, Dom.uiId,
    Dom.inl, Dom.base, Dom.kids]

theorem updStyleL_append (i : Nat) (f : Styles → Styles) (l1 l2 : List Dom) :
    updStyleL i f (l1 ++ l2) = updStyleL i f l1 ++ updStyleL i f l2 := by
  induction l1 with
  | nil => rfl
  | cons d ds ih => simp [updStyleL, ih]

theorem getById_append_left (i : Nat) (l1 l2 : List Dom) (h : i ∉ l1.map Dom.id) :
    getById i (l1 ++ l2) = getById i l2 := by
  induction l1 with
  | nil => rfl
  | cons d ds ih =>
    simp only [List.map_cons, List.mem_cons, not_or] at h
    simp [getById, Ne.symm h.1, ih h.2]

theorem removeId_append_left (i : Nat) (l1 l2 : List Dom) (h : i ∉ l1.map Dom.id) :
    removeId i (l1 ++ l2) = l1 ++ removeId i l2 := by
  induction l1 with
  | nil => rfl
  | cons d ds ih =>
    simp only [List.map_cons, List.mem_cons, not_or] at h
    simp [removeId, Ne.symm h.1, ih h.2]

theorem updKidsTop_append_left (i : Nat) (f : List Dom → List Dom) (l1 l2 : List Dom)
    (h : i ∉ l1.map Dom.id) :
    updKidsTop i f (l1 ++ l2) = l1 ++ updKidsTop i f l2 := by
  induction l1 with
  | nil => rfl
  | cons d ds ih =>
    simp only [List.map_cons, List.mem_cons, not_or] at h
    simp [updKidsTop, Ne.symm h.1, ih h.2]

/-- Hiding all but the last element of `mids ++ [side]` hides
exactly the intermediate children. -/
theorem hideButLast_eq (side : Dom) :
    ∀ mids : List Dom,
      hideButLast (mids ++ [side]) =
        mids.map (Dom.mapInl fun s => { s with display := "none" }) ++ [side] := by
  intro mids
  induction mids with
  | nil => rfl
  | cons m ms ih =>
    rcases ms with _ | ⟨m2, ms2⟩
    · simp [hideButLast]
    · rw [show ((m :: m2 :: ms2) ++ [side]) = m :: ((m2 :: ms2) ++ [side]) from rfl]
      rw [show hideButLast (m :: ((m2 :: ms2) ++ [side])) =
          m.mapInl (fun s => { s with display := "none" }) ::
            hideButLast ((m2 :: ms2) ++ [side]) from rfl]
      rw [ih]
      simp

/-- The guarded hide step of `createFlexWrapper` hides exactly the
intermediate children, whatever the length. -/
theorem hide_step (main side : Dom) (mids : List Dom) :
    (if (main :: mids ++ [side]).length > 2 then hideIntermediates (main :: mids ++ [side])
     else main :: mids ++ [side]) =
    main :: mids.map (Dom.mapInl fun s => { s with display := "none" }) ++ [side] := by
  rcases mids with _ | ⟨m, ms⟩
  · simp
  · rw [if_pos (by simp)]
    calc hideIntermediates ((main :: (m :: ms)) ++ [side])
        = main :: hideButLast ((m :: ms) ++ [side]) := rfl
      _ = main :: ((m :: ms).map (Dom.mapInl fun s => { s with display := "none" }) ++
            [side]) := by rw [hideButLast_eq side (m :: ms)]
      _ = main :: (m :: ms).map (Dom.mapInl fun s => { s with display := "none" }) ++
            [side] := rfl

theorem getById_cons_ne (i : Nat) (d : Dom) (l : List Dom) (h : d.id ≠ i) :
    getById i (d :: l) = getById i l := by
  simp [getById, h]

theorem getById_cons_eq (i : Nat) (d : Dom) (l : List Dom) (h : d.id = i) :
    getById i (d :: l) = some d := by
  simp [getById, h]

theorem removeId_cons_ne (i : Nat) (d : Dom) (l : List Dom) (h : d.id ≠ i) :
    removeId i (d :: l) = d :: removeId i l := by
  simp [removeId, h]

theorem removeId_cons_eq (i : Nat) (d : Dom) (l : List Dom) (h : d.id = i) :
    removeId i (d :: l) = l := by
  simp [removeId, h]

theorem updKidsTop_cons_eq (i : Nat) (f : List Dom → List Dom) (d : Dom) (l : List Dom)
    (h : d.id = i) :
    updKidsTop i f (d :: l) = d.withKids (f d.kids) :: l := by
  simp [updKidsTop, h]

theorem insertBeforeId_cons_eq (a : Nat) (w d : Dom) (l : List Dom) (h : d.id = a) :
    insertBeforeId a w (d :: l) = w :: d :: l := by
  simp [insertBeforeId, h]

/-- A style write through a reference to an element that sits in the
middle of the target's child list. -/
theorem updStyleL_mid (i : Nat) (f : Styles → Styles) (pre : List Dom) (x : Dom)
    (post : List Dom)
    (hpre : i ∉ forestIds pre) (hx : x.id = i) (hk : i ∉ forestIds x.kids)
    (hpost : i ∉ forestIds post) :
    updStyleL i f (pre ++ x :: post) = pre ++ x.mapInl f :: post := by
  rw [updStyleL_append, updStyleL_noop i f pre hpre]
  rw [show updStyleL i f (x :: post) = updStyle i f x :: updStyleL i f post from rfl]
  rw [updStyle_self i f x hx hk, updStyleL_noop i f post hpost]

/-- A style write through a reference to the first element inside the
wrapper pair. -/
theorem updStyleL_pair_fst (i : Nat) (f : Styles → Styles) (W : Nat) (t u : String)
    (ws bs : Styles) (a b : Dom) (rest : List Dom)
    (hW : W ≠ i) (ha : a.id = i) (hak : i ∉ forestIds a.kids)
    (hb : i ∉ domIds b) (hrest : i ∉ forestIds rest) :
    updStyleL i f (Dom.node W t u ws bs [a, b] :: rest) =
      Dom.node W t u ws bs [a.mapInl f, b] :: rest := by
  rw [show updStyleL i f (Dom.node W t u ws bs [a, b] :: rest) =
    updStyle i f (Dom.node W t u ws bs [a, b]) :: updStyleL i f rest from rfl]
  rw [updStyleL_noop i f rest hrest]
  rw [show updStyle i f (Dom.node W t u ws bs [a, b]) =
    Dom.node W t u (if W = i then f ws else ws) bs (updStyleL i f [a, b]) from rfl]
  rw [if_neg hW]
  rw [show updStyleL i f [a, b] = [updStyle i f a, updStyle i f b] from rfl]
  rw [updStyle_self i f a ha hak, updStyle_noop i f b hb]

/-- A style write through a reference to the second element inside
the wrapper pair. -/
theorem updStyleL_pair_snd (i : Nat) (f : Styles → Styles) (W : Nat) (t u : String)
    (ws bs : Styles) (a b : Dom) (rest : List Dom)
    (hW : W ≠ i) (ha : i ∉ domIds a) (hb : b.id = i) (hbk : i ∉ forestIds b.kids)
    (hrest : i ∉ forestIds rest) :
    updStyleL i f (Dom.node W t u ws bs [a, b] :: rest) =
      Dom.node W t u ws bs [a, b.mapInl f] :: rest := by
  rw [show updStyleL i f (Dom.node W t u ws bs [a, b] :: rest) =
    updStyle i f (Dom.node W t u ws bs [a, b]) :: updStyleL i f rest from rfl]
  rw [updStyleL_noop i f rest hrest]
  rw [show updStyle i f (Dom.node W t u ws bs [a, b]) =
    Dom.node W t u (if W = i then f ws else ws) bs (updStyleL i f [a, b]) from rfl]
  rw [if_neg hW]
  rw [show updStyleL i f [a, b] = [updStyle i f a, updStyle i f b] from rfl]
  rw [updStyle_noop i f a ha, updStyle_self i f b hb hbk]

/-- The style record `createFlexWrapper` gives a fresh wrapper. -/
def wrapStyles (dir : String) : Styles :=
  { display := "flex", width := "100%", height := "100%",
    boxSizing := "border-box", gap := "0px", flexDirection := dir }

theorem newFlexWrapper_eq (W : Nat) (dir : String) :
    newFlexWrapper W dir = Dom.node W "div" "" (wrapStyles dir) {} [] := rfl

/-- `appendIntoWrapper` in equational form when the child is found. -/
theorem appendIntoWrapper_eq (W c : Nat) (kids : List Dom) (ch : Dom)
    (hg : getById c kids = some ch) :
    appendIntoWrapper W c kids =
      updKidsTop W (fun ks => ks ++ [ch]) (removeId c kids) := by
  unfold appendIntoWrapper
  rw [hg]

/-- The structural part of `createFlexWrapper` when the side child is
appended first: insert the wrapper before the main child, then move
the side child and the main child into it. -/
theorem wrap_moves_sideFirst (main sideX : Dom) (mids2 : List Dom) (W sid : Nat)
    (dir : String) (hsid : sideX.id = sid)
    (hWM : W ≠ main.id) (hWS : W ≠ sid) (hMS : main.id ≠ sid)
    (hSmTop : sid ∉ mids2.map Dom.id) :
    appendIntoWrapper W main.id
      (appendIntoWrapper W sid
        (insertBeforeId main.id (newFlexWrapper W dir) ((main :: mids2) ++ [sideX]))) =
      Dom.node W "div" "" (wrapStyles dir) {} [sideX, main] :: mids2 := by
  conv_lhs => rw [List.cons_append]
  rw [insertBeforeId_cons_eq main.id (newFlexWrapper W dir) main (mids2 ++ [sideX]) rfl]
  have g1 : getById sid (newFlexWrapper W dir :: main :: (mids2 ++ [sideX])) =
      some sideX := by
    rw [getById_cons_ne _ _ _ (show (newFlexWrapper W dir).id ≠ sid from hWS)]
    rw [getById_cons_ne _ _ _ hMS]
    rw [getById_append_left _ _ _ hSmTop]
    rw [getById_cons_eq _ _ _ hsid]
  have a1 : appendIntoWrapper W sid
      (newFlexWrapper W dir :: main :: (mids2 ++ [sideX])) =
      Dom.node W "div" "" (wrapStyles dir) {} [sideX] :: main :: mids2 := by
    rw [appendIntoWrapper_eq _ _ _ _ g1]
    rw [removeId_cons_ne _ _ _ (show (newFlexWrapper W dir).id ≠ sid from hWS)]
    rw [removeId_cons_ne _ _ _ hMS]
    rw [removeId_append_left _ _ _ hSmTop]
    rw [removeId_cons_eq _ _ _ hsid]
    rw [updKidsTop_cons_eq _ _ _ _ (show (newFlexWrapper W dir).id = W from rfl)]
    simp [newFlexWrapper_eq, Dom.withKids, Dom.id, Dom.tag, Dom.uiId, Dom.inl, Dom.base,
      Dom.kids]
  rw [a1]
  have g2 : getById main.id
      (Dom.node W "div" "" (wrapStyles dir) {} [sideX] :: main :: mids2) = some main := by
    rw [getById_cons_ne _ _ _
      (show (Dom.node W "div" "" (wrapStyles dir) {} [sideX]).id ≠ main.id from hWM)]
    rw [getById_cons_eq _ _ _ rfl]
  rw [appendIntoWrapper_eq _ _ _ _ g2]
  rw [removeId_cons_ne _ _ _
    (show (Dom.node W "div" "" (wrapStyles dir) {} [sideX]).id ≠ main.id from hWM)]
  rw [removeId_cons_eq _ _ _ rfl]
  rw [updKidsTop_cons_eq _ _ _ _
    (show (Dom.node W "div" "" (wrapStyles dir) {} [sideX]).id = W from rfl)]
  simp [Dom.withKids, Dom.id, Dom.tag, Dom.uiId, Dom.inl, Dom.base, Dom.kids]

/-- The structural part of `createFlexWrapper` when the main child is
appended first. -/
theorem wrap_moves_mainFirst (main sideX : Dom) (mids2 : List Dom) (W sid : Nat)
    (dir : String) (hsid : sideX.id = sid)
    (hWM : W ≠ main.id) (hWS : W ≠ sid) (hMS : main.id ≠ sid)
    (hSmTop : sid ∉ mids2.map Dom.id) :
    appendIntoWrapper W sid
      (appendIntoWrapper W main.id
        (insertBeforeId main.id (newFlexWrapper W dir) ((main :: mids2) ++ [sideX]))) =
      Dom.node W "div" "" (wrapStyles dir) {} [main, sideX] :: mids2 := by
  conv_lhs => rw [List.cons_append]
  rw [insertBeforeId_cons_eq main.id (newFlexWrapper W dir) main (mids2 ++ [sideX]) rfl]
  have g1 : getById main.id (newFlexWrapper W dir :: main :: (mids2 ++ [sideX])) =
      some main := by
    rw [getById_cons_ne _ _ _ (show (newFlexWrapper W dir).id ≠ main.id from hWM)]
    rw [getById_cons_eq _ _ _ rfl]
  have a1 : appendIntoWrapper W main.id
      (newFlexWrapper W dir :: main :: (mids2 ++ [sideX])) =
      Dom.node W "div" "" (wrapStyles dir) {} [main] :: (mids2 ++ [sideX]) := by
    rw [appendIntoWrapper_eq _ _ _ _ g1]
    rw [removeId_cons_ne _ _ _ (show (newFlexWrapper W dir).id ≠ main.id from hWM)]
    rw [removeId_cons_eq _ _ _ rfl]
    rw [updKidsTop_cons_eq _ _ _ _ (show (newFlexWrapper W dir).id = W from rfl)]
    simp [newFlexWrapper_eq, Dom.withKids, Dom.id, Dom.tag, Dom.uiId, Dom.inl, Dom.base,
      Dom.kids]
  rw [a1]
  have g2 : getById sid
      (Dom.node W "div" "" (wrapStyles dir) {} [main] :: (mids2 ++ [sideX])) =
      some sideX := by
    rw [getById_cons_ne _ _ _
      (show (Dom.node W "div" "" (wrapStyles dir) {} [main]).id ≠ sid from hWS)]
    rw [getById_append_left _ _ _ hSmTop]
    rw [getById_cons_eq _ _ _ hsid]
  rw [appendIntoWrapper_eq _ _ _ _ g2]
  rw [removeId_cons_ne _ _ _
    (show (Dom.node W "div" "" (wrapStyles dir) {} [main]).id ≠ sid from hWS)]
  rw [removeId_append_left _ _ _ hSmTop]
  rw [removeId_cons_eq _ _ _ hsid]
  rw [updKidsTop_cons_eq _ _ _ _
    (show (Dom.node W "div" "" (wrapStyles dir) {} [main]).id = W from rfl)]
  simp [Dom.withKids, Dom.id, Dom.tag, Dom.uiId, Dom.inl, Dom.base, Dom.kids]

/-- `createFlexWrapper` in the `left` position: the wrapper takes the
main child's slot, holds the side child first and the main child
second, and every intermediate child is hidden. -/
theorem createFlexWrapper_left (main side : Dom) (mids : List Dom)
    (cfg : MergedConfig) (W : Nat)
    (hp : cfg.documentationPosition = "left")
    (hMS : main.id ≠ side.id) (hWM : W ≠ main.id) (hWS : W ≠ side.id)
    (hMm : main.id ∉ forestIds mids) (hSm : side.id ∉ forestIds mids)
    (hMmain : main.id ∉ forestIds main.kids)
    (hSside : side.id ∉ forestIds side.kids)
    (hMdS : main.id ∉ domIds side) (hSdM : side.id ∉ domIds main) :
    createFlexWrapper ((main :: mids) ++ [side]) main.id side.id W cfg =
      Dom.node W "div" "" (wrapStyles "row") {}
        [(((((side.mapInl fun s => { s with display := "" }).mapInl
              fun s => { s with height := "100%" }).mapInl
              fun s => { s with borderRight := borderColor }).mapInl
              fun s => { s with borderLeft := "none" }).mapInl
              fun s => { s with
                flex := toString cfg.documentationProportion ++ " 1 0" }).mapInl
              fun s => { s with overflow := "auto" },
         main.mapInl fun s => { s with
           flex := toString cfg.editorProportion ++ " 1 0" }] ::
        mids.map (Dom.mapInl fun s => { s with display := "none" }) := by
  have hSm2 : side.id ∉
      forestIds (mids.map (Dom.mapInl fun s => { s with display := "none" })) := by
    rw [forestIds_map_mapInl]; exact hSm
  have hMm2 : main.id ∉
      forestIds (mids.map (Dom.mapInl fun s => { s with display := "none" })) := by
    rw [forestIds_map_mapInl]; exact hMm
  have hpreS : side.id ∉
      forestIds (main ::
        mids.map (Dom.mapInl fun s => { s with display := "none" })) := by
    rw [forestIds_cons]
    intro h
    rcases List.mem_append.mp h with h | h
    · exact hSdM h
    · exact hSm2 h
  have hSmTop : side.id ∉
      (mids.map (Dom.mapInl fun s => { s with display := "none" })).map Dom.id := by
    rw [map_id_map_mapInl]
    intro h
    exact hSm (mem_forestIds_of_mem_map_id side.id mids h)
  have hnil : side.id ∉ forestIds ([] : List Dom) := by simp [forestIds]
  unfold createFlexWrapper
  simp only [hp]
  rw [if_pos (Or.inl trivial : True ∨ ("left" : String) = "right")]
  rw [if_pos (trivial : True)]
  rw [hide_step main side mids]
  rw [updStyleL_mid]
  rw [updStyleL_mid]
  rw [updStyleL_mid]
  rw [updStyleL_mid]
  rw [wrap_moves_sideFirst]
  rw [updStyleL_pair_snd]
  rw [updStyleL_pair_fst]
  rw [updStyleL_pair_fst]
  all_goals first
    | exact hpreS
    | exact rfl
    | exact hSside
    | exact hMmain
    | exact hnil
    | exact hWM
    | exact hWS
    | exact hMS
    | exact hSmTop
    | exact hMm2
    | exact hSm2
    | (simp only [domIds_mapInl]; exact hMdS)
    | (simp only [domIds_mapInl]; exact hSdM)

/-- `createFlexWrapper` in the `right` position: the wrapper holds the
main child first and the side child second. -/
theorem createFlexWrapper_right (main side : Dom) (mids : List Dom)
    (cfg : MergedConfig) (W : Nat)
    (hp : cfg.documentationPosition = "right")
    (hMS : main.id ≠ side.id) (hWM : W ≠ main.id) (hWS : W ≠ side.id)
    (hMm : main.id ∉ forestIds mids) (hSm : side.id ∉ forestIds mids)
    (hMmain : main.id ∉ forestIds main.kids)
    (hSside : side.id ∉ forestIds side.kids)
    (hMdS : main.id ∉ domIds side) (hSdM : side.id ∉ domIds main) :
    createFlexWrapper ((main :: mids) ++ [side]) main.id side.id W cfg =
      Dom.node W "div" "" (wrapStyles "row") {}
        [main.mapInl fun s => { s with
           flex := toString cfg.editorProportion ++ " 1 0" },
         (((((side.mapInl fun s => { s with display := "" }).mapInl
              fun s => { s with height := "100%" }).mapInl
              fun s => { s with borderLeft := borderColor }).mapInl
              fun s => { s with borderRight := "none" }).mapInl
              fun s => { s with
                flex := toString cfg.documentationProportion ++ " 1 0" }).mapInl
              fun s => { s with overflow := "auto" }] ::
        mids.map (Dom.mapInl fun s => { s with display := "none" }) := by
  have hSm2 : side.id ∉
      forestIds (mids.map (Dom.mapInl fun s => { s with display := "none" })) := by
    rw [forestIds_map_mapInl]; exact hSm
  have hMm2 : main.id ∉
      forestIds (mids.map (Dom.mapInl fun s => { s with display := "none" })) := by
    rw [forestIds_map_mapInl]; exact hMm
  have hpreS : side.id ∉
      forestIds (main ::
        mids.map (Dom.mapInl fun s => { s with display := "none" })) := by
    rw [forestIds_cons]
    intro h
    rcases List.mem_append.mp h with h | h
    · exact hSdM h
    · exact hSm2 h
  have hSmTop : side.id ∉
      (mids.map (Dom.mapInl fun s => { s with display := "none" })).map Dom.id := by
    rw [map_id_map_mapInl]
    intro h
    exact hSm (mem_forestIds_of_mem_map_id side.id mids h)
  have hnil : side.id ∉ forestIds ([] : List Dom) := by simp [forestIds]
  unfold createFlexWrapper
  simp only [hp]
  rw [if_pos (Or.inr trivial : ("right" : String) = "left" ∨ True)]
  rw [if_neg (by decide : ¬ ("right" : String) = "left")]
  rw [hide_step main side mids]
  rw [updStyleL_mid]
  rw [updStyleL_mid]
  rw [updStyleL_mid]
  rw [updStyleL_mid]
  rw [wrap_moves_mainFirst]
  rw [updStyleL_pair_fst]
  rw [updStyleL_pair_snd]
  rw [updStyleL_pair_snd]
  all_goals first
    | exact hpreS
    | exact rfl
    | exact hSside
    | exact hMmain
    | exact hnil
    | exact hWM
    | exact hWS
    | exact hMS
    | exact hSmTop
    | exact hMm2
    | exact hSm2
    | (simp only [domIds_mapInl]; exact hMdS)
    | (simp only [domIds_mapInl]; exact hSdM)

/-- `createFlexWrapper` in the `top` position: a column wrapper with
the side child first. -/
theorem createFlexWrapper_top (main side : Dom) (mids : List Dom)
    (cfg : MergedConfig) (W : Nat)
    (hp : cfg.documentationPosition = "top")
    (hMS : main.id ≠ side.id) (hWM : W ≠ main.id) (hWS : W ≠ side.id)
    (hMm : main.id ∉ forestIds mids) (hSm : side.id ∉ forestIds mids)
    (hMmain : main.id ∉ forestIds main.kids)
    (hSside : side.id ∉ forestIds side.kids)
    (hMdS : main.id ∉ domIds side) (hSdM : side.id ∉ domIds main) :
    createFlexWrapper ((main :: mids) ++ [side]) main.id side.id W cfg =
      Dom.node W "div" "" (wrapStyles "column") {}
        [(((((side.mapInl fun s => { s with display := "" }).mapInl
              fun s => { s with height := "100%" }).mapInl
              fun s => { s with borderBottom := borderColor }).mapInl
              fun s => { s with borderTop := "none" }).mapInl
              fun s => { s with
                flex := toString cfg.documentationProportion ++ " 1 0" }).mapInl
              fun s => { s with overflow := "auto" },
         main.mapInl fun s => { s with
           flex := toString cfg.editorProportion ++ " 1 0" }] ::
        mids.map (Dom.mapInl fun s => { s with display := "none" }) := by
  have hSm2 : side.id ∉
      forestIds (mids.map (Dom.mapInl fun s => { s with display := "none" })) := by
    rw [forestIds_map_mapInl]; exact hSm
  have hMm2 : main.id ∉
      forestIds (mids.map (Dom.mapInl fun s => { s with display := "none" })) := by
    rw [forestIds_map_mapInl]; exact hMm
  have hpreS : side.id ∉
      forestIds (main ::
        mids.map (Dom.mapInl fun s => { s with display := "none" })) := by
    rw [forestIds_cons]
    intro h
    rcases List.mem_append.mp h with h | h
    · exact hSdM h
    · exact hSm2 h
  have hSmTop : side.id ∉
      (mids.map (Dom.mapInl fun s => { s with display := "none" })).map Dom.id := by
    rw [map_id_map_mapInl]
    intro h
    exact hSm (mem_forestIds_of_mem_map_id side.id mids h)
  have hnil : side.id ∉ forestIds ([] : List Dom) := by simp [forestIds]
  unfold createFlexWrapper
  simp only [hp]
  rw [if_neg (by decide : ¬ (("top" : String) = "left" ∨ ("top" : String) = "right"))]
  rw [if_pos (trivial : True)]
  rw [hide_step main side mids]
  rw [updStyleL_mid]
  rw [updStyleL_mid]
  rw [updStyleL_mid]
  rw [updStyleL_mid]
  rw [wrap_moves_sideFirst]
  rw [updStyleL_pair_snd]
  rw [updStyleL_pair_fst]
  rw [updStyleL_pair_fst]
  all_goals first
    | exact hpreS
    | exact rfl
    | exact hSside
    | exact hMmain
    | exact hnil
    | exact hWM
    | exact hWS
    | exact hMS
    | exact hSmTop
    | exact hMm2
    | exact hSm2
    | (simp only [domIds_mapInl]; exact hMdS)
    | (simp only [domIds_mapInl]; exact hSdM)

/-- `createFlexWrapper` in the `bottom` position: a column wrapper
with the main child first. -/
theorem createFlexWrapper_bottom (main side : Dom) (mids : List Dom)
    (cfg : MergedConfig) (W : Nat)
    (hp : cfg.documentationPosition = "bottom")
    (hMS : main.id ≠ side.id) (hWM : W ≠ main.id) (hWS : W ≠ side.id)
    (hMm : main.id ∉ forestIds mids) (hSm : side.id ∉ forestIds mids)
    (hMmain : main.id ∉ forestIds main.kids)
    (hSside : side.id ∉ forestIds side.kids)
    (hMdS : main.id ∉ domIds side) (hSdM : side.id ∉ domIds main) :
    createFlexWrapper ((main :: mids) ++ [side]) main.id side.id W cfg =
      Dom.node W "div" "" (wrapStyles "column") {}
        [main.mapInl fun s => { s with
           flex := toString cfg.editorProportion ++ " 1 0" },
         (((((side.mapInl fun s => { s with display := "" }).mapInl
              fun s => { s with height := "100%" }).mapInl
              fun s => { s with borderTop := borderColor }).mapInl
              fun s => { s with borderBottom := "none" }).mapInl
              fun s => { s with
                flex := toString cfg.documentationProportion ++ " 1 0" }).mapInl
              fun s => { s with overflow := "auto" }] ::
        mids.map (Dom.mapInl fun s => { s with display := "none" }) := by
  have hSm2 : side.id ∉
      forestIds (mids.map (Dom.mapInl fun s => { s with display := "none" })) := by
    rw [forestIds_map_mapInl]; exact hSm
  have hMm2 : main.id ∉
      forestIds (mids.map (Dom.mapInl fun s => { s with display := "none" })) := by
    rw [forestIds_map_mapInl]; exact hMm
  have hpreS : side.id ∉
      forestIds (main ::
        mids.map (Dom.mapInl fun s => { s with display := "none" })) := by
    rw [forestIds_cons]
    intro h
    rcases List.mem_append.mp h with h | h
    · exact hSdM h
    · exact hSm2 h
  have hSmTop : side.id ∉
      (mids.map (Dom.mapInl fun s => { s with display := "none" })).map Dom.id := by
    rw [map_id_map_mapInl]
    intro h
    exact hSm (mem_forestIds_of_mem_map_id side.id mids h)
  have hnil : side.id ∉ forestIds ([] : List Dom) := by simp [forestIds]
  unfold createFlexWrapper
  simp only [hp]
  rw [if_neg
    (by decide : ¬ (("bottom" : String) = "left" ∨ ("bottom" : String) = "right"))]
  rw [if_neg (by decide : ¬ ("bottom" : String) = "top")]
  rw [hide_step main side mids]
  rw [updStyleL_mid]
  rw [updStyleL_mid]
  rw [updStyleL_mid]
  rw [updStyleL_mid]
  rw [wrap_moves_mainFirst]
  rw [updStyleL_pair_fst]
  rw [updStyleL_pair_snd]
  rw [updStyleL_pair_snd]
  all_goals first
    | exact hpreS
    | exact rfl
    | exact hSside
    | exact hMmain
    | exact hnil
    | exact hWM
    | exact hWS
    | exact hMS
    | exact hSmTop
    | exact hMm2
    | exact hSm2
    | (simp only [domIds_mapInl]; exact hMdS)
    | (simp only [domIds_mapInl]; exact hSdM)

/-- Folding the wrapper-removal step over fingerprint-free elements
changes nothing. -/
theorem fold_reset_noop :
    ∀ (l : List Dom) (cur : List Dom),
      (∀ d ∈ l, isWrapperFingerprint d = false) →
      l.foldl (fun cur div =>
        if isWrapperFingerprint div then removeId div.id cur ++ div.kids else cur) cur =
        cur := by
  intro l
  induction l with
  | nil => intro cur _; rfl
  | cons d ds ih =>
    intro cur h
    rw [List.foldl_cons, if_neg (by simp [h d (by simp)])]
    exact ih cur fun x hx => h x (by simp [hx])

/-- An element hidden with `display: none` never matches the wrapper
fingerprint, whatever its host styles. -/
theorem hidden_not_fingerprint (d : Dom) :
    isWrapperFingerprint (d.mapInl fun s => { s with display := "none" }) = false := by
  rcases d with ⟨j, t, u, inl, base, kids⟩
  simp [isWrapperFingerprint, Dom.computed, Dom.mapInl, Dom.inl, Dom.base, Dom.kids]

/-- Resetting absorbs a prior write to any resettable style
property. -/
theorem reset_absorb_step (g : Styles → Styles) (d : Dom)
    (hg : resetStyles (g d.inl) = resetStyles d.inl) :
    Dom.mapInl resetStyles (d.mapInl g) = Dom.mapInl resetStyles d := by
  rcases d with ⟨i, t, u, inl, base, kids⟩
  simp only [Dom.mapInl, Dom.id, Dom.tag, Dom.uiId, Dom.inl, Dom.base, Dom.kids] at hg ⊢
  rw [hg]

/-- Resetting the styles of the hidden intermediates gives back the
originals when their inline styles carried nothing resettable. -/
theorem reset_map_hidden (mids : List Dom)
    (h : ∀ d ∈ mids, resetStyles d.inl = d.inl) :
    (mids.map (Dom.mapInl fun s => { s with display := "none" })).map
      (Dom.mapInl resetStyles) = mids := by
  induction mids with
  | nil => rfl
  | cons d ds ih =>
    simp only [List.map_cons, List.cons.injEq]
    refine ⟨?_, ih (fun x hx => h x (List.mem_cons_of_mem _ hx))⟩
    rw [reset_absorb_step]
    · exact mapInl_eq_self resetStyles d (h d (List.mem_cons_self _ _))
    · rfl

theorem kids_withKids (d : Dom) (ks : List Dom) : (d.withKids ks).kids = ks := rfl

theorem kids_node (i : Nat) (t u : String) (inl base : Styles) (ks : List Dom) :
    (Dom.node i t u inl base ks).kids = ks := rfl

/-- One unfolding of the wrapper-removal fold. -/
theorem fold_reset_head (w : Dom) (l cur : List Dom) :
    (w :: l).foldl (fun cur div =>
      if isWrapperFingerprint div then removeId div.id cur ++ div.kids else cur) cur =
    l.foldl (fun cur div =>
      if isWrapperFingerprint div then removeId div.id cur ++ div.kids else cur)
      (if isWrapperFingerprint w then removeId w.id cur ++ w.kids else cur) := rfl

/-- `resetLayout` on a target whose first child is the flex wrapper:
the wrapper is removed, its two children are hoisted to the end of
the child list, and every remaining child has its styles reset. -/
theorem resetLayout_on_wrapped (target : Dom) (dir : String) (a b : Dom)
    (mids2 : List Dom) (W : Nat)
    (hfp : isWrapperFingerprint
      (Dom.node W "div" "" (wrapStyles dir) {} [a, b]) = true)
    (hmids : ∀ d ∈ mids2, isWrapperFingerprint d = false) :
    resetLayout (target.withKids
        (Dom.node W "div" "" (wrapStyles dir) {} [a, b] :: mids2)) =
      (target.mapInl fun s =>
        { s with display := "", flexDirection := "", height := "" }).withKids
        ((mids2 ++ [a, b]).map (Dom.mapInl resetStyles)) := by
  unfold resetLayout
  simp only [kids_withKids]
  rw [fold_reset_head]
  rw [hfp, if_pos rfl]
  rw [removeId_cons_eq _ _ _ rfl]
  simp only [kids_node]
  rw [fold_reset_noop mids2 _ hmids]
  rfl

/-- C1 (amended): for every target container with children
`main :: mids ++ [side]` whose elements carry distinct, non-clashing
identities and no resettable inline styles, and for every
documentation position among left/right/top/bottom with
`editorProportion ∈ [30,80]`, applying `createFlexWrapper` and then
`resetLayout` removes the wrapper and restores every original child
with its original attributes and inline styles — but in a different
document order: the hoisted pair lands at the end of the child list
(after the intermediates), with the side child before the main child
for positions left and top and after it for right and bottom, so the
original order is not restored. -/
theorem c1_round_trip (target main side : Dom) (mids : List Dom)
    (cfg : MergedConfig) (W : Nat)
    (hkids : target.kids = (main :: mids) ++ [side])
    (hpos : cfg.documentationPosition = "left" ∨ cfg.documentationPosition = "right" ∨
      cfg.documentationPosition = "top" ∨ cfg.documentationPosition = "bottom")
    (hep : 30 ≤ cfg.editorProportion ∧ cfg.editorProportion ≤ 80)
    (hMS : main.id ≠ side.id) (hWM : W ≠ main.id) (hWS : W ≠ side.id)
    (hMm : main.id ∉ forestIds mids) (hSm : side.id ∉ forestIds mids)
    (hMmain : main.id ∉ forestIds main.kids)
    (hSside : side.id ∉ forestIds side.kids)
    (hMdS : main.id ∉ domIds side) (hSdM : side.id ∉ domIds main)
    (hMclean : resetStyles main.inl = main.inl)
    (hSclean : resetStyles side.inl = side.inl)
    (hmidsClean : ∀ d ∈ mids, resetStyles d.inl = d.inl)
    (hT : { target.inl with display := "", flexDirection := "", height := "" } =
      target.inl) :
    resetLayout (target.withKids
        (createFlexWrapper target.kids main.id side.id W cfg)) =
      target.withKids (mids ++
        (if cfg.documentationPosition = "left" ∨ cfg.documentationPosition = "top"
         then [side, main] else [main, side])) := by
  have hmids2 : ∀ d ∈ mids.map (Dom.mapInl fun s => { s with display := "none" }),
      isWrapperFingerprint d = false := by
    intro d hd
    rcases List.mem_map.mp hd with ⟨x, _, rfl⟩
    exact hidden_not_fingerprint x
  rw [hkids]
  rcases hpos with hp | hp | hp | hp
  · rw [createFlexWrapper_left main side mids cfg W hp hMS hWM hWS hMm hSm hMmain
      hSside hMdS hSdM]
    rw [resetLayout_on_wrapped target "row" _ _ _ W rfl hmids2]
    rw [List.map_append]
    rw [reset_map_hidden mids hmidsClean]
    simp only [List.map_cons, List.map_nil]
    rw [reset_absorb_step]
    rw [reset_absorb_step]
    rw [reset_absorb_step]
    rw [reset_absorb_step]
    rw [reset_absorb_step]
    rw [reset_absorb_step]
    rw [reset_absorb_step]
    rw [mapInl_eq_self resetStyles side hSclean]
    rw [mapInl_eq_self resetStyles main hMclean]
    rw [mapInl_eq_self _ target hT]
    rw [hp]
    rw [if_pos (Or.inl rfl : ("left" : String) = "left" ∨ ("left" : String) = "top")]
    all_goals rfl
  · rw [createFlexWrapper_right main side mids cfg W hp hMS hWM hWS hMm hSm hMmain
      hSside hMdS hSdM]
    rw [resetLayout_on_wrapped target "row" _ _ _ W rfl hmids2]
    rw [List.map_append]
    rw [reset_map_hidden mids hmidsClean]
    simp only [List.map_cons, List.map_nil]
    rw [reset_absorb_step]
    rw [reset_absorb_step]
    rw [reset_absorb_step]
    rw [reset_absorb_step]
    rw [reset_absorb_step]
    rw [reset_absorb_step]
    rw [reset_absorb_step]
    rw [mapInl_eq_self resetStyles main hMclean]
    rw [mapInl_eq_self resetStyles side hSclean]
    rw [mapInl_eq_self _ target hT]
    rw [hp]
    rw [if_neg
      (by decide : ¬ (("right" : String) = "left" ∨ ("right" : String) = "top"))]
    all_goals rfl
  · rw [createFlexWrapper_top main side mids cfg W hp hMS hWM hWS hMm hSm hMmain
      hSside hMdS hSdM]
    rw [resetLayout_on_wrapped target "column" _ _ _ W rfl hmids2]
    rw [List.map_append]
    rw [reset_map_hidden mids hmidsClean]
    simp only [List.map_cons, List.map_nil]
    rw [reset_absorb_step]
    rw [reset_absorb_step]
    rw [reset_absorb_step]
    rw [reset_absorb_step]
    rw [reset_absorb_step]
    rw [reset_absorb_step]
    rw [reset_absorb_step]
    rw [mapInl_eq_self resetStyles side hSclean]
    rw [mapInl_eq_self resetStyles main hMclean]
    rw [mapInl_eq_self _ target hT]
    rw [hp]
    rw [if_pos (Or.inr rfl : ("top" : String) = "left" ∨ ("top" : String) = "top")]
    all_goals rfl
  · rw [createFlexWrapper_bottom main side mids cfg W hp hMS hWM hWS hMm hSm hMmain
      hSside hMdS hSdM]
    rw [resetLayout_on_wrapped target "column" _ _ _ W rfl hmids2]
    rw [List.map_append]
    rw [reset_map_hidden mids hmidsClean]
    simp only [List.map_cons, List.map_nil]
    rw [reset_absorb_step]
    rw [reset_absorb_step]
    rw [reset_absorb_step]
    rw [reset_absorb_step]
    rw [reset_absorb_step]
    rw [reset_absorb_step]
    rw [reset_absorb_step]
    rw [mapInl_eq_self resetStyles main hMclean]
    rw [mapInl_eq_self resetStyles side hSclean]
    rw [mapInl_eq_self _ target hT]
    rw [hp]
    rw [if_neg
      (by decide : ¬ (("bottom" : String) = "left" ∨ ("bottom" : String) = "top"))]
    all_goals rfl

theorem c1_witness :
    resetLayout ((Dom.node 0 "div" "" {} {} [Dom.node 1 "div" "" {} {} [],
        Dom.node 3 "div" "" {} {} [], Dom.node 2 "div" "" {} {} []]).withKids
        (createFlexWrapper [Dom.node 1 "div" "" {} {} [],
            Dom.node 3 "div" "" {} {} [], Dom.node 2 "div" "" {} {} []]
          1 2 50 DEFAULT_CONFIG)) =
      Dom.node 0 "div" "" {} {} [Dom.node 3 "div" "" {} {} [],
        Dom.node 1 "div" "" {} {} [], Dom.node 2 "div" "" {} {} []] := by
  exact c1_round_trip
    (Dom.node 0 "div" "" {} {} [Dom.node 1 "div" "" {} {} [],
      Dom.node 3 "div" "" {} {} [], Dom.node 2 "div" "" {} {} []])
    (Dom.node 1 "div" "" {} {} []) (Dom.node 2 "div" "" {} {} [])
    [Dom.node 3 "div" "" {} {} []] DEFAULT_CONFIG 50
    rfl (Or.inr (Or.inl rfl)) (by decide) (by decide) (by decide) (by decide)
    (by simp [forestIds, domIds, Dom.id]) (by simp [forestIds, domIds, Dom.id])
    (by simp [forestIds]) (by simp [forestIds])
    (by simp [domIds, forestIds, Dom.id]) (by simp [domIds, forestIds, Dom.id])
    rfl rfl
    (by
      intro d hd
      have h := List.mem_singleton.mp hd
      subst h
      rfl)
    rfl

/-- The editor child (identity 1) of the round-trip counterexample. -/
def c1editor : Dom := .node 1 "div" "" {} {} []

/-- The documentation child (identity 2), carrying an inline
`width: 5px` before the transform. -/
def c1doc : Dom := .node 2 "div" "" { width := "5px" } {} []

/-- The target container of the round-trip counterexample. -/
def c1target : Dom := .node 0 "div" "" {} {} [c1editor, c1doc]

/-- The default configuration with the documentation on the left. -/
def c1cfgLeft : MergedConfig := { DEFAULT_CONFIG with documentationPosition := "left" }

/-- The round trip concretely, on the spec's own scenario: a target
with children `[Editor, Doc]` (identities 1 and 2) and position
`left` comes back from wrap/reset as `[Doc, Editor]` — the elements
survive but the original order does not — and the documentation
child's pre-existing inline `width: 5px` comes back wiped to `""` by
`resetStyles`, so the original inline styles are not restored
either. -/
theorem c1_counterexample :
    (resetLayout (c1target.withKids
        (createFlexWrapper c1target.kids c1editor.id c1doc.id 50 c1cfgLeft))).kids.map
      Dom.id = [2, 1] ∧
    c1target.kids.map Dom.id = [1, 2] ∧
    c1doc.inl.width = "5px" ∧
    ((resetLayout (c1target.withKids
        (createFlexWrapper c1target.kids c1editor.id c1doc.id 50 c1cfgLeft))).kids.map
      fun d => d.inl.width) = ["", ""] := by
  refine ⟨?_, rfl, rfl, ?_⟩ <;>
    simp [c1target, c1editor, c1doc, c1cfgLeft, resetLayout, createFlexWrapper,
      hideIntermediates, hideButLast, updStyleL, updStyle, insertBeforeId,
      appendIntoWrapper, getById, updKidsTop, removeId, newFlexWrapper,
      isWrapperFingerprint, resetStyles, borderColor, Dom.mapInl, Dom.computed,
      Dom.withKids, Dom.id, Dom.kids, Dom.inl, Dom.base, DEFAULT_CONFIG]

/-! ## Claims C2 and C9: scan idempotence and the skip rules -/

/-- `processDialog` never changes a dialog's identity or its
formula-editor lookup result. -/
theorem processDialog_preserves (config : MergedConfig) (d : DialogState) (fid : Nat)
    (g : DocStyleState) (nid : Nat) (lm : LMState) :
    (processDialog config d fid g nid lm).1.id = d.id ∧
    (processDialog config d fid g nid lm).1.formulaEditorId = d.formulaEditorId := by
  rcases hr : d.root with _ | root
  · simp [processDialog, hr]
  · rcases ht : root.target with _ | t0
    · simp [processDialog, hr, ht, applySize]
    · by_cases hp : (findTargetContainerM t0).layoutPatched
      · simp [processDialog, hr, ht, applySize, hp]
      · simp [processDialog, hr, ht, applySize, hp]

/-- One scan step appends exactly one dialog; a skipped dialog is
appended unchanged. -/
theorem step_dialogs_shape (config : MergedConfig) (acc : ScanAcc) (d : DialogState) :
    ∃ y, (processDialogsStep config acc d).dialogs = acc.dialogs ++ [y] ∧
      (d.id ∈ acc.processed ∨ d.formulaEditorId = none → y = d) ∧
      y.id = d.id ∧ y.formulaEditorId = d.formulaEditorId := by
  by_cases hc : d.id ∈ acc.processed
  · exact ⟨d, by simp [processDialogsStep, hc], fun _ => rfl, rfl, rfl⟩
  · by_cases hf : d.formulaEditorId = none
    · exact ⟨d, by simp [processDialogsStep, hc, hf], fun _ => rfl, rfl, rfl⟩
    · obtain ⟨fid, hfid⟩ := Option.ne_none_iff_exists'.mp hf
      refine ⟨(processDialog config d fid acc.doc acc.nextWrapperId acc.lm).1,
        by simp [processDialogsStep, hc, hfid], fun h => ?_,
        (processDialog_preserves config d fid acc.doc acc.nextWrapperId acc.lm).1,
        (processDialog_preserves config d fid acc.doc acc.nextWrapperId acc.lm).2⟩
      rcases h with h | h
      · exact absurd h hc
      · exact absurd h hf

/-- A skipped dialog leaves everything but the output list
untouched. -/
theorem step_skip_eq (config : MergedConfig) (done : List DialogState)
    (proc : List Nat) (g : DocStyleState) (n : Nat) (lm : LMState) (d : DialogState)
    (h : d.id ∈ proc ∨ d.formulaEditorId = none) :
    processDialogsStep config ⟨done, proc, g, n, lm⟩ d = ⟨done ++ [d], proc, g, n, lm⟩ := by
  rcases h with h | h
  · simp [processDialogsStep, h]
  · by_cases hc : d.id ∈ proc
    · simp [processDialogsStep, hc]
    · simp [processDialogsStep, hc, h]

/-- One scan step either leaves the processed set alone or appends
the id of a dialog that does have a formula editor. -/
theorem step_processed_shape (config : MergedConfig) (acc : ScanAcc) (d : DialogState) :
    (processDialogsStep config acc d).processed = acc.processed ∨
    ((processDialogsStep config acc d).processed = acc.processed ++ [d.id] ∧
      d.formulaEditorId ≠ none) := by
  by_cases hc : d.id ∈ acc.processed
  · exact Or.inl (by simp [processDialogsStep, hc])
  · rcases hf : d.formulaEditorId with _ | fid
    · exact Or.inl (by simp [processDialogsStep, hc, hf])
    · exact Or.inr ⟨by simp [processDialogsStep, hc, hf], by simp [hf]⟩

/-- When every dialog is skippable the whole scan is a no-op apart
from copying the dialog list. -/
theorem fold_all_skip (config : MergedConfig) :
    ∀ (ds : List DialogState) (done : List DialogState) (proc : List Nat)
      (g : DocStyleState) (n : Nat) (lm : LMState),
      (∀ d ∈ ds, d.id ∈ proc ∨ d.formulaEditorId = none) →
      ds.foldl (processDialogsStep config) ⟨done, proc, g, n, lm⟩ =
        ⟨done ++ ds, proc, g, n, lm⟩ := by
  intro ds
  induction ds with
  | nil => intro done proc g n lm _; simp
  | cons x rest ih =>
    intro done proc g n lm h
    rw [List.foldl_cons, step_skip_eq config done proc g n lm x (h x (by simp))]
    rw [ih (done ++ [x]) proc g n lm (fun d hd => h d (by simp [hd]))]
    simp

/-- The scan only ever appends to the output dialog list. -/
theorem fold_dialogs_mono (config : MergedConfig) :
    ∀ (ds : List DialogState) (acc : ScanAcc), ∃ tail,
      (ds.foldl (processDialogsStep config) acc).dialogs = acc.dialogs ++ tail := by
  intro ds
  induction ds with
  | nil => exact fun acc => ⟨[], by simp⟩
  | cons x rest ih =>
    intro acc
    obtain ⟨y, hy, -, -, -⟩ := step_dialogs_shape config acc x
    obtain ⟨tail, htail⟩ := ih (processDialogsStep config acc x)
    exact ⟨y :: tail, by rw [List.foldl_cons, htail, hy]; simp⟩

/-- A dialog with no formula editor comes out of the scan unchanged,
at its original position. -/
theorem fold_dialogs_get (config : MergedConfig) :
    ∀ (ds : List DialogState) (acc : ScanAcc) (i : Nat) (d : DialogState),
      ds.get? i = some d → d.formulaEditorId = none →
      (ds.foldl (processDialogsStep config) acc).dialogs.get? (acc.dialogs.length + i) =
        some d := by
  intro ds
  induction ds with
  | nil => intro acc i d h _; simp at h
  | cons x rest ih =>
    intro acc i d h hEd
    cases i with
    | zero =>
      have hxd : x = d := by simpa using h
      obtain ⟨y, hy, hcond, -, -⟩ := step_dialogs_shape config acc x
      have hyd : y = d := by
        rw [hcond (Or.inr (by rw [hxd]; exact hEd))]
        exact hxd
      obtain ⟨tail, htail⟩ := fold_dialogs_mono config rest (processDialogsStep config acc x)
      rw [List.foldl_cons, htail, hy, hyd, List.append_assoc]
      rw [List.get?_append_right (by simp)]
      simp
    | succ j =>
      obtain ⟨y, hy, -, -, -⟩ := step_dialogs_shape config acc x
      have hres := ih (processDialogsStep config acc x) j d (by simpa using h) hEd
      rw [hy] at hres
      rw [List.foldl_cons]
      have harith : (acc.dialogs ++ [y]).length + j = acc.dialogs.length + (j + 1) := by
        simp
        omega
      rwa [harith] at hres

/-- Everything in the processed set after a scan was either already
there or is the id of a scanned dialog that has a formula editor. -/
theorem fold_processed_sub (config : MergedConfig) :
    ∀ (ds : List DialogState) (acc : ScanAcc) (x : Nat),
      x ∈ (ds.foldl (processDialogsStep config) acc).processed →
      x ∈ acc.processed ∨ ∃ d, d ∈ ds ∧ d.id = x ∧ d.formulaEditorId ≠ none := by
  intro ds
  induction ds with
  | nil => intro acc x h; exact Or.inl (by simpa using h)
  | cons y rest ih =>
    intro acc x h
    rcases ih (processDialogsStep config acc y) x h with h1 | ⟨d, hd, hid, hfe⟩
    · rcases step_processed_shape config acc y with hs | ⟨hs, hfe⟩
      · rw [hs] at h1
        exact Or.inl h1
      · rw [hs] at h1
        rcases List.mem_append.mp h1 with h2 | h2
        · exact Or.inl h2
        · refine Or.inr ⟨y, by simp, ?_, hfe⟩
          have hx : x = y.id := by simpa using h2
          exact hx.symm
    · exact Or.inr ⟨d, by simp [hd], hid, hfe⟩

/-- The processed set only grows across a scan. -/
theorem fold_processed_mono (config : MergedConfig) :
    ∀ (ds : List DialogState) (acc : ScanAcc) (x : Nat),
      x ∈ acc.processed → x ∈ (ds.foldl (processDialogsStep config) acc).processed := by
  intro ds
  induction ds with
  | nil => intro acc x h; simpa using h
  | cons y rest ih =>
    intro acc x h
    apply ih
    rcases step_processed_shape config acc y with hs | ⟨hs, -⟩ <;> rw [hs] <;> simp [h]

/-- Scan invariant: every output dialog that has a formula editor is
in the output processed set. -/
theorem fold_inv (config : MergedConfig) :
    ∀ (ds : List DialogState) (acc : ScanAcc),
      (∀ d ∈ acc.dialogs, d.formulaEditorId ≠ none → d.id ∈ acc.processed) →
      ∀ d ∈ (ds.foldl (processDialogsStep config) acc).dialogs,
        d.formulaEditorId ≠ none →
        d.id ∈ (ds.foldl (processDialogsStep config) acc).processed := by
  intro ds
  induction ds with
  | nil => intro acc h; exact h
  | cons x rest ih =>
    intro acc hInv
    apply ih
    intro d hd hfe
    obtain ⟨y, hy, hcond, hyid, hyfe⟩ := step_dialogs_shape config acc x
    rw [hy] at hd
    rcases List.mem_append.mp hd with hd1 | hd2
    · rcases step_processed_shape config acc x with hs | ⟨hs, -⟩ <;> rw [hs]
      · exact hInv d hd1 hfe
      · exact List.mem_append.mpr (Or.inl (hInv d hd1 hfe))
    · have hdy : d = y := by simpa using hd2
      subst hdy
      by_cases hc : x.id ∈ acc.processed
      · rcases step_processed_shape config acc x with hs | ⟨hs, -⟩ <;> rw [hs, hyid]
        · exact hc
        · exact List.mem_append.mpr (Or.inl hc)
      · rcases hf : x.formulaEditorId with _ | fid
        · have := hcond (Or.inr hf)
          rw [this] at hyfe
          rw [this, hyfe] at hfe
          exact absurd hf hfe
        · have hs : (processDialogsStep config acc x).processed = acc.processed ++ [x.id] := by
            simp [processDialogsStep, hc, hf]
          rw [hs, hyid]
          simp

/-- C2: running the scan a second time in a row changes nothing —
each dialog is skipped through the processed set; and even when
`processDialog` itself is re-driven on an already-patched dialog, the
`data-coda-formula-layout-patched` marker stops the layout step (no
wrapper element is created, no observer attached, the target is left
exactly as it was) while the sizing and styling steps are reapplied
unconditionally. -/
theorem c2_idempotent_reprocessing (config : MergedConfig) (s : CustomizerState) :
    processDialogs config (processDialogs config s) = processDialogs config s ∧
    (∀ (d : DialogState) (root : RootDivState) (t : TargetState) (fid : Nat)
        (g : DocStyleState) (nid : Nat) (lm : LMState),
      d.root = some root → root.target = some t →
      t.layoutPatched = true → t.codaFormulaTarget = true →
      (processDialog config d fid g nid lm).2.2.1 = nid ∧
      (processDialog config d fid g nid lm).2.2.2 = lm ∧
      (processDialog config d fid g nid lm).1.root =
        some { applySize config root with hasSettingsBtn := true, target := some t } ∧
      (processDialog config d fid g nid lm).1.editorStyles =
        (applyEditorStyles config g d.editorStyles).2) := by
  constructor
  · have hinv := fold_inv config s.dialogs
      ⟨[], s.processed, s.doc, s.nextWrapperId, s.lm⟩ (by intro d hd; simp at hd)
    set r := s.dialogs.foldl (processDialogsStep config)
      ⟨[], s.processed, s.doc, s.nextWrapperId, s.lm⟩ with hrdef
    have hskip : ∀ d ∈ r.dialogs, d.id ∈ r.processed ∨ d.formulaEditorId = none := by
      intro d hd
      by_cases hfe : d.formulaEditorId = none
      · exact Or.inr hfe
      · exact Or.inl (hinv d hd hfe)
    have h1 : processDialogs config s =
        (⟨r.dialogs, r.processed, r.doc, r.nextWrapperId, r.lm⟩ : CustomizerState) := rfl
    have h2 : processDialogs config
        (⟨r.dialogs, r.processed, r.doc, r.nextWrapperId, r.lm⟩ : CustomizerState) =
        (⟨(r.dialogs.foldl (processDialogsStep config)
             ⟨[], r.processed, r.doc, r.nextWrapperId, r.lm⟩).dialogs,
          (r.dialogs.foldl (processDialogsStep config)
             ⟨[], r.processed, r.doc, r.nextWrapperId, r.lm⟩).processed,
          (r.dialogs.foldl (processDialogsStep config)
             ⟨[], r.processed, r.doc, r.nextWrapperId, r.lm⟩).doc,
          (r.dialogs.foldl (processDialogsStep config)
             ⟨[], r.processed, r.doc, r.nextWrapperId, r.lm⟩).nextWrapperId,
          (r.dialogs.foldl (processDialogsStep config)
             ⟨[], r.processed, r.doc, r.nextWrapperId, r.lm⟩).lm⟩ : CustomizerState) := rfl
    rw [h1, h2, fold_all_skip config r.dialogs [] r.processed r.doc r.nextWrapperId r.lm hskip]
    simp
  · intro d root t fid g nid lm hr ht hpatch hcft
    have hft : findTargetContainerM t = t := by simp [findTargetContainerM, hcft]
    refine ⟨?_, ?_, ?_, ?_⟩ <;>
      simp [processDialog, hr, ht, applySize, hft, hpatch]

def c2dialog : DialogState :=
  { id := 3, formulaEditorId := some 1,
    root := some { target := some { codaFormulaTarget := true, layoutPatched := true,
                                    heightStyle := "auto", kids := [] } } }

/-- C2 witness: on a dialog whose target already carries the patch
marker, a re-driven `processDialog` allocates no wrapper element and
attaches no observer. -/
theorem c2_witness :
    (processDialog DEFAULT_CONFIG c2dialog 1 {} 500 {}).2.2.1 = 500 ∧
    (processDialog DEFAULT_CONFIG c2dialog 1 {} 500 {}).2.2.2 = {} := by
  have h := (c2_idempotent_reprocessing DEFAULT_CONFIG {}).2 c2dialog
    { target := some { codaFormulaTarget := true, layoutPatched := true,
                       heightStyle := "auto", kids := [] } }
    { codaFormulaTarget := true, layoutPatched := true,
      heightStyle := "auto", kids := [] }
    1 {} 500 {} rfl rfl rfl rfl
  exact ⟨h.1, h.2.1⟩

/-- C9: a dialog in which no formula editor is found is skipped by
the scan: it is not added to the processed set and its own state is
untouched (so a later mutation-triggered rescan can retry it). -/
theorem c9_missing_editor_skipped (config : MergedConfig) (s : CustomizerState)
    (i : Nat) (d : DialogState)
    (hNodup : (s.dialogs.map DialogState.id).Nodup)
    (hi : s.dialogs.get? i = some d)
    (hEd : d.formulaEditorId = none)
    (hUn : d.id ∉ s.processed) :
    (processDialogs config s).dialogs.get? i = some d ∧
    d.id ∉ (processDialogs config s).processed := by
  constructor
  · have h := fold_dialogs_get config s.dialogs
      ⟨[], s.processed, s.doc, s.nextWrapperId, s.lm⟩ i d hi hEd
    simpa [processDialogs] using h
  · intro hmem
    rw [processDialogs] at hmem
    simp only at hmem
    rcases fold_processed_sub config s.dialogs
        ⟨[], s.processed, s.doc, s.nextWrapperId, s.lm⟩ d.id hmem with h1 | ⟨d2, hd2, hid, hfe⟩
    · exact hUn h1
    · have hmemd : d ∈ s.dialogs := List.get?_mem hi
      have hdd : d2 = d :=
        List.inj_on_of_nodup_map hNodup hd2 hmemd (by simpa using hid)
      rw [hdd] at hfe
      exact hfe hEd

/-- C9 witness: a one-dialog page where the dialog has no formula
editor: the scan leaves it untouched and unprocessed. -/
theorem c9_witness :
    (processDialogs DEFAULT_CONFIG { dialogs := [{ id := 5 }] }).dialogs.get? 0 =
      some { id := 5 } ∧
    (5 : Nat) ∉ (processDialogs DEFAULT_CONFIG { dialogs := [{ id := 5 }] }).processed := by
  have h := c9_missing_editor_skipped DEFAULT_CONFIG { dialogs := [{ id := 5 }] } 0
    { id := 5 } (by simp) rfl rfl (by simp)
  exact h

/-! ## Claim C8: indent level computation -/

/-- String prefix test on the underlying character lists. -/
def strStartsWith (s p : String) : Bool := p.data.isPrefixOf s.data

/-- C8 (amended): for every editor line scanned by
`updateIndentLevels` that has a first span, the attached
`data-indent-level` marker equals the line's leading-whitespace count
divided by 2 and rounded down whenever that level is between 1 and 8,
and there is no marker attribute at all when the level is 0 — or when
it exceeds 8: levels above 8 are dropped entirely, not capped at 8. -/
theorem c8_indent_marker (line : EditorLine) (text : String)
    (h : line.firstSpanText = some text) :
    (1 ≤ leadingWhitespaceCount text.data / 2 ∧ leadingWhitespaceCount text.data / 2 ≤ 8 →
      (updateIndentLine line).indentLevel = some (leadingWhitespaceCount text.data / 2) ∧
      (updateIndentLine line).indentGuides = true) ∧
    (leadingWhitespaceCount text.data / 2 = 0 ∨ 8 < leadingWhitespaceCount text.data / 2 →
      (updateIndentLine line).indentLevel = none ∧
      (updateIndentLine line).indentGuides = false) := by
  simp only [updateIndentLine, h]
  constructor
  · rintro ⟨h1, h2⟩
    rw [if_pos ⟨h1, h2⟩]
    exact ⟨rfl, rfl⟩
  · intro hc
    rw [if_neg (by omega)]
    exact ⟨rfl, rfl⟩

/-- C8 witness: a line with 6 leading spaces gets
`data-indent-level="3"` and a line with 1 leading space gets no
marker. -/
theorem c8_witness :
    (updateIndentLine { firstSpanText := some "      " }).indentLevel = some 3 ∧
    (updateIndentLine { firstSpanText := some " " }).indentLevel = none := by
  constructor
  · have h := (c8_indent_marker { firstSpanText := some "      " } "      " rfl).1
    rw [(h (by decide)).1]; decide
  · exact (((c8_indent_marker { firstSpanText := some " " } " " rfl).2) (by decide)).1

/-- C8 counterexample: a line with 18 leading spaces has raw level
⌊18/2⌋ = 9; the capped-at-8 reading of the claim would attach
`data-indent-level="8"`, but the code removes the marker instead. -/
theorem c8_counterexample :
    leadingWhitespaceCount (String.data "                  ") = 18 ∧
    min (leadingWhitespaceCount (String.data "                  ") / 2) 8 = 8 ∧
    (updateIndentLine { firstSpanText := some "                  " }).indentLevel = none := by
  decide

/-! ## Claim C7: concrete left-position layout scenario -/

def c7editor : Dom := .node 1 "div" "formula-editor" {} {} []

def c7doc : Dom := .node 2 "div" "" {} {} []

def c7cfg : MergedConfig :=
  mergeConfig { showDocumentation := some true, documentationPosition := some "left",
                editorProportion := some 70 }

/-- C7: the config `(showDocumentation := true, position := "left",
editorProportion := 70)` (hence `documentationProportion = 30`)
applied to the container `[Editor, Doc]` yields one wrapper with
`flex-direction: row`, children `[Doc, Editor]` in that order, Doc's
inline flex `"30 1 0"` (starting with `"30"`), Editor's `"70 1 0"`
(starting with `"70"`), and Doc with its right border set and its
left border `none`. -/
theorem c7_left_scenario :
    createFlexWrapper [c7editor, c7doc] 1 2 50 c7cfg =
      [Dom.node 50 "div" ""
        { display := "flex", width := "100%", height := "100%",
          boxSizing := "border-box", gap := "0px", flexDirection := "row" } {}
        [Dom.node 2 "div" ""
          { display := "", height := "100%", borderRight := borderColor,
            borderLeft := "none", flex := "30 1 0", overflow := "auto" } {} [],
         Dom.node 1 "div" "formula-editor" { flex := "70 1 0" } {} []]] ∧
    c7cfg.documentationProportion = 30 ∧
    strStartsWith "30 1 0" "30" = true ∧
    strStartsWith "70 1 0" "70" = true ∧
    borderColor ≠ "" ∧ borderColor ≠ "none" := by
  have h70 : truthyNum (some (70 : ℚ)) = true := by decide
  have hcfg : c7cfg =
      { modalWidth := 95, modalHeight := 95, modalLeft := 50, modalTop := 50,
        transparentBackground := false, showDocumentation := true,
        documentationPosition := "left", editorProportion := 70,
        documentationProportion := 30, editorFontSize := 14, editorLineHeight := 3/2,
        editorFontFamily := "monospace", editorTheme := "light",
        showIndentGuides := true, indentGuideStyle := "dotted",
        highlightActiveIndent := true } := by
    simp only [c7cfg, mergeConfig, DEFAULT_CONFIG, h70, Option.getD_some, Option.getD_none,
      if_true, MergedConfig.mk.injEq]
    norm_num
  rw [hcfg]
  refine ⟨?_, by norm_num, by decide, by decide, by decide, by decide⟩
  simp [c7editor, c7doc, createFlexWrapper, updStyleL, updStyle, insertBeforeId,
    appendIntoWrapper, getById, updKidsTop, newFlexWrapper, Dom.mapInl, Dom.id, Dom.tag,
    Dom.uiId, Dom.inl, Dom.base, Dom.kids, Dom.withKids]
  exact ⟨rfl, rfl⟩

/-! ## Claim C4: the side-panel observer across teardown -/

/-- `applyLayout` can only add side-child observers. -/
theorem applyLayout_observers (lm : LMState) (kids : List Dom) (mainId wid : Nat)
    (config : MergedConfig) :
    ∃ added, (applyLayout lm kids mainId wid config).2.observers = lm.observers ++ added := by
  unfold applyLayout showDocumentation
  by_cases h2 : kids.length < 2
  · exact ⟨[], by simp [h2]⟩
  · by_cases hs : config.showDocumentation
    · rcases hl : kids.getLast? with _ | side
      · exact ⟨[], by simp [h2, hs, hl]⟩
      · exact ⟨[side.id], by simp [h2, hs, hl, observeSideChild]⟩
    · exact ⟨[], by simp [h2, hs]⟩

/-- `processDialog` can only add side-child observers. -/
theorem processDialog_observers (config : MergedConfig) (d : DialogState) (fid : Nat)
    (g : DocStyleState) (nid : Nat) (lm : LMState) :
    ∃ added, (processDialog config d fid g nid lm).2.2.2.observers =
      lm.observers ++ added := by
  rcases hr : d.root with _ | root
  · exact ⟨[], by simp [processDialog, hr]⟩
  · rcases ht : root.target with _ | t0
    · exact ⟨[], by simp [processDialog, hr, ht, applySize]⟩
    · by_cases hp : (findTargetContainerM t0).layoutPatched
      · exact ⟨[], by simp [processDialog, hr, ht, applySize, hp]⟩
      · obtain ⟨added, ha⟩ := applyLayout_observers lm
          ((findTargetContainerM t0).kids) fid nid config
        exact ⟨added, by simp [processDialog, hr, ht, applySize, hp, ha]⟩

/-- One scan step can only add side-child observers. -/
theorem processDialogsStep_observers (config : MergedConfig) (acc : ScanAcc)
    (d : DialogState) :
    ∃ added, (processDialogsStep config acc d).lm.observers =
      acc.lm.observers ++ added := by
  unfold processDialogsStep
  by_cases hc : d.id ∈ acc.processed
  · exact ⟨[], by simp [hc]⟩
  · rcases hf : d.formulaEditorId with _ | fid
    · exact ⟨[], by simp [hc, hf]⟩
    · obtain ⟨added, ha⟩ := processDialog_observers config d fid acc.doc acc.nextWrapperId
        acc.lm
      exact ⟨added, by simp [hc, hf, ha]⟩

/-- A whole scan can only add side-child observers. -/
theorem processDialogs_fold_observers (config : MergedConfig) (ds : List DialogState) :
    ∀ acc : ScanAcc, ∃ added,
      (ds.foldl (processDialogsStep config) acc).lm.observers =
        acc.lm.observers ++ added := by
  induction ds with
  | nil => exact fun acc => ⟨[], by simp⟩
  | cons d ds ih =>
    intro acc
    obtain ⟨a1, h1⟩ := processDialogsStep_observers config acc d
    obtain ⟨a2, h2⟩ := ih (processDialogsStep config acc d)
    exact ⟨a1 ++ a2, by rw [List.foldl_cons, h2, h1, List.append_assoc]⟩

/-- C4 (amended): the side-panel observer attached by
`observeSideChild` when a container enters the wrapped state is never
disconnected.  A configuration update tears every wrapper down
(`resetDialog` → `resetLayout`, neither of which touches an observer)
and then reprocesses, so across `updateConfig` the observer list can
only grow: every previously connected side-panel observer survives
the transition away from the wrapped state. -/
theorem c4_observer_survives_reset (newConfig : MergedConfig) (s : CustomizerState) :
    ∃ added, (updateConfig newConfig s).lm.observers = s.lm.observers ++ added := by
  unfold updateConfig processDialogs
  obtain ⟨added, ha⟩ := processDialogs_fold_observers newConfig
    (s.dialogs.map resetDialog)
    ⟨[], [], s.doc, s.nextWrapperId, s.lm⟩
  exact ⟨added, ha⟩

def c4editor : Dom := .node 1 "div" "formula-editor" {} {} []

def c4doc : Dom := .node 2 "div" "" {} {} []

/-- A watcher state holding one dialog whose target container is in
the wrapped state (its wrapper built by `createFlexWrapper`), with
the side-panel observer for the documentation panel (identity 2)
connected. -/
def c4target : TargetState :=
  { codaFormulaTarget := true
    layoutPatched := true
    heightStyle := "auto"
    kids := createFlexWrapper [c4editor, c4doc] 1 2 50 c7cfg }

def c4state : CustomizerState :=
  { dialogs := [{ id := 7, formulaEditorId := some 1,
                  root := some { target := some c4target } }]
    processed := [7]
    nextWrapperId := 51
    lm := { observers := [2] } }

def c4cfgOff : MergedConfig :=
  { DEFAULT_CONFIG with showDocumentation := false, editorLineHeight := 2 }

/-- C4 counterexample: updating the configuration to
`showDocumentation = false` moves the container out of the wrapped
state — afterwards its children are the flat `[Doc, Editor]` list
with no wrapper — yet the side-panel observer is still connected, so
the claimed "disconnected on any transition away from WRAPPED" is
false. -/
theorem c4_counterexample :
    (updateConfig c4cfgOff c4state).lm.observers = [2] ∧
    ((updateConfig c4cfgOff c4state).dialogs.map fun d =>
      (d.root.bind RootDivState.target).map fun t => t.kids.map Dom.id) = [some [2, 1]] := by
  constructor <;>
    simp [updateConfig, processDialogs, processDialogsStep, processDialog, c4state,
      c4target, c4cfgOff, c4editor, c4doc, c7cfg, resetDialog, resetLayoutT, resetLayout,
      findTargetContainerM, applySize, applyEditorStyles, injectGlobalStyles,
      applyInlineStyles, applyTheme, applyIndentGuides, updateIndentLevels,
      applyLayout, hideDocumentation, showDocumentation, containsFormulaEditor,
      domHasUiId, forestHasUiId, createFlexWrapper, updStyleL, updStyle, insertBeforeId,
      appendIntoWrapper, getById, updKidsTop, removeId, newFlexWrapper, isWrapperFingerprint,
      resetStyles, Dom.mapInl, Dom.computed, Dom.withKids, Dom.id, Dom.tag, Dom.uiId,
      Dom.inl, Dom.base, Dom.kids, mergeConfig, DEFAULT_CONFIG, truthyNum,
      resolveFont, themeTable, resolveIndentStyle, fontMap, observeSideChild]

/-! ## Claim C3: structural query vs manual fallback walk -/

def c3root : Dom :=
  .node 0 "div" "" {} {}
    [.node 1 "div" "" {} {}
      [.node 2 "div" "" {} {} [],
       .node 3 "div" "" {} {} [],
       .node 4 "div" "" {} {}
         [.node 5 "div" "" {} {}
           [.node 6 "div" "" {} {} []]]],
     .node 10 "div" "" {} {} [],
     .node 7 "div" "" {} {}
       [.node 8 "div" "" {} {}
         [.node 9 "div" "" {} {} []]]]

/-- C3 counterexample: on `c3root` both locators are defined, yet the
structural query returns the node with identity 9 (third child of the
root, then last, then last) while the fallback returns the node with
identity 6 (it descends through the root's first inner div and takes
THAT div's third child). -/
theorem c3_counterexample :
    (structuralQuery c3root).map Dom.id = some 9 ∧
    (findTargetContainerFallback c3root).map Dom.id = some 6 ∧
    (structuralQuery c3root).map Dom.id ≠ (findTargetContainerFallback c3root).map Dom.id := by
  have h1 : (structuralQuery c3root).map Dom.id = some 9 := by
    simp [structuralQuery, c3root, Dom.kids, Dom.tag, Dom.id]
  have h2 : (findTargetContainerFallback c3root).map Dom.id = some 6 := by
    simp [findTargetContainerFallback, firstDivInForest, c3root, Dom.kids, Dom.tag, Dom.id]
  refine ⟨h1, h2, ?_⟩
  rw [h1, h2]
  decide

/-- C3 (amended): the fallback walk reproduces the structural descent
one level deeper than the query does — relative to the first div
found below the root, not to the root itself: whenever the structural
query succeeds when started at that first inner div, the fallback
started at the root returns exactly its result (so the two locators
agree only modulo that one-level shift). -/
theorem c3_fallback_shifted (rootDiv F t : Dom)
    (hF : firstDivInForest rootDiv.kids = some F)
    (hq : structuralQuery F = some t) :
    findTargetContainerFallback rootDiv = some t := by
  unfold structuralQuery at hq
  rcases e1 : F.kids[2]? with _ | c3
  · simp [e1] at hq
  · simp only [List.get?_eq_getElem?, e1] at hq
    have hlen : ¬ F.kids.length < 3 := by
      obtain ⟨hlt, -⟩ := List.getElem?_eq_some.mp e1
      omega
    by_cases h3 : c3.tag = "div"
    · simp only [h3, ne_eq, not_true_eq_false, if_false] at hq
      rcases e2 : c3.kids.getLast? with _ | l1
      · simp [e2] at hq
      · simp only [e2] at hq
        by_cases h4 : l1.tag = "div"
        · simp only [h4, ne_eq, not_true_eq_false, if_false] at hq
          rcases e3 : l1.kids.getLast? with _ | l2
          · simp [e3] at hq
          · simp only [e3] at hq
            by_cases h5 : l2.tag = "div"
            · simp only [h5, ne_eq, not_true_eq_false, if_false] at hq
              simp only [findTargetContainerFallback, hF, List.get?_eq_getElem?,
                if_neg hlen, e1, e2, e3]
              exact hq
            · simp [if_pos (by simpa using h5)] at hq
        · simp [if_pos (by simpa using h4)] at hq
    · simp [if_pos (by simpa using h3)] at hq

/-- C3 witness: the shifted agreement at a concrete tree whose first
inner div satisfies the structural shape. -/
theorem c3_witness :
    findTargetContainerFallback
      (.node 0 "div" "" {} {}
        [.node 1 "div" "" {} {}
          [.node 2 "div" "" {} {} [],
           .node 3 "div" "" {} {} [],
           .node 4 "div" "" {} {}
             [.node 5 "div" "" {} {}
               [.node 6 "div" "" {} {} []]]]]) =
      some (.node 6 "div" "" {} {} []) := by
  exact c3_fallback_shifted _
    (.node 1 "div" "" {} {}
      [.node 2 "div" "" {} {} [],
       .node 3 "div" "" {} {} [],
       .node 4 "div" "" {} {}
         [.node 5 "div" "" {} {}
           [.node 6 "div" "" {} {} []]]])
    (.node 6 "div" "" {} {} []) (by simp [firstDivInForest, Dom.kids]) rfl

/-! ## Claims C5 and C6: validation and the proportion invariant -/

/-- Range test (`lo ≤ v ≤ hi`) on an optional field, reading the
claim's data-model ranges; an absent field is unconstrained. -/
def rangeOk (x : Option ℚ) (lo hi : ℚ) : Bool :=
  match x with
  | none => true
  | some v => decide (lo ≤ v ∧ v ≤ hi)

/-- Enum test on an optional field, reading the claim's data-model
enums; an absent field is unconstrained. -/
def enumOk (x : Option String) (l : List String) : Bool :=
  match x with
  | none => true
  | some s => l.contains s

/-- The validity predicate exactly as the claim states it — the field
ranges and enums of the data model — written from the spec's words,
for comparison with the source's `validateConfig`. -/
def claimFieldRanges (c : JsConfig) : Bool :=
  rangeOk c.modalWidth 20 98 && rangeOk c.modalHeight 20 98 &&
  rangeOk c.modalLeft 0 100 && rangeOk c.modalTop 0 100 &&
  enumOk c.documentationPosition validPositions &&
  rangeOk c.editorProportion 30 80 &&
  rangeOk c.editorFontSize 10 24 && rangeOk c.editorLineHeight 1 (5/2) &&
  enumOk c.editorFontFamily validFonts && enumOk c.editorTheme validThemes &&
  enumOk c.indentGuideStyle validIndentStyles

set_option maxHeartbeats 1600000 in
/-- The early-return chain of `validateConfig` as one conjunction. -/
theorem validateConfig_eq_chain (c : JsConfig) :
    validateConfig (some c) =
      (!(jsLtOpt c.modalWidth 20 || jsGtOpt c.modalWidth 98) &&
       !(jsLtOpt c.modalHeight 20 || jsGtOpt c.modalHeight 98) &&
       !(jsLtOpt c.modalLeft 0 || jsGtOpt c.modalLeft 100) &&
       !(jsLtOpt c.modalTop 0 || jsGtOpt c.modalTop 100) &&
       includesOpt validPositions c.documentationPosition &&
       !(jsLtOpt c.editorProportion 30 || jsGtOpt c.editorProportion 80) &&
       !(truthyNum c.editorFontSize &&
         (jsLtOpt c.editorFontSize 10 || jsGtOpt c.editorFontSize 24)) &&
       !(truthyNum c.editorLineHeight &&
         (jsLtOpt c.editorLineHeight 1 || jsGtOpt c.editorLineHeight (5/2))) &&
       !(truthyStr c.editorFontFamily && !(includesOpt validFonts c.editorFontFamily)) &&
       !(truthyStr c.editorTheme && !(includesOpt validThemes c.editorTheme)) &&
       !(truthyStr c.indentGuideStyle &&
         !(includesOpt validIndentStyles c.indentGuideStyle))) := by
  simp only [validateConfig]
  repeat' split
  all_goals simp_all
  all_goals (intros; try simp_all)
  all_goals
    (cases h1 : truthyNum c.editorFontSize <;>
     cases h2 : truthyNum c.editorLineHeight <;>
     cases h3 : truthyStr c.editorFontFamily <;>
     cases h4 : truthyStr c.editorTheme <;>
     cases h5 : truthyStr c.indentGuideStyle <;>
     simp_all)

/-- An unguarded pair of JavaScript range checks agrees with the
claim's range reading on every optional value. -/
theorem range_component (x : Option ℚ) (lo hi : ℚ) :
    (!(jsLtOpt x lo || jsGtOpt x hi)) = rangeOk x lo hi := by
  rcases x with _ | v
  · rfl
  · by_cases hl : v < lo <;> by_cases hh : v > hi <;>
      simp_all [jsLtOpt, jsGtOpt, rangeOk, not_lt]

/-- A truthiness-guarded range check agrees with the claim's range
reading as soon as the field is not the falsy number `0`. -/
theorem guarded_range_component (x : Option ℚ) (lo hi : ℚ) (hx : x ≠ some 0) :
    (!(truthyNum x && (jsLtOpt x lo || jsGtOpt x hi))) = rangeOk x lo hi := by
  rcases x with _ | v
  · rfl
  · have hv : v ≠ 0 := by simpa using hx
    by_cases hl : v < lo <;> by_cases hh : v > hi <;>
      simp_all [truthyNum, jsLtOpt, jsGtOpt, rangeOk, not_lt]

/-- A truthiness-guarded enum check agrees with the claim's enum
reading as soon as the field is not the falsy string `""`. -/
theorem guarded_enum_component (x : Option String) (l : List String) (hx : x ≠ some "") :
    (!(truthyStr x && !(includesOpt l x))) = enumOk x l := by
  rcases x with _ | s
  · rfl
  · have hs : s ≠ "" := by simpa using hx
    simp [truthyStr, includesOpt, enumOk, hs]

/-- The unguarded position check agrees with the claim's enum reading
as soon as the field is present. -/
theorem position_component (x : Option String) (hx : x ≠ none) :
    includesOpt validPositions x = enumOk x validPositions := by
  rcases x with _ | s
  · exact absurd rfl hx
  · rfl

def c5cex : JsConfig :=
  { modalWidth := some 95, modalHeight := some 95, modalLeft := some 50,
    modalTop := some 50, documentationPosition := some "right",
    editorProportion := some 66, editorFontSize := some 0 }

/-- C5 counterexample: a configuration whose `editorFontSize` is `0`
— outside the claimed range `[10, 24]` — passes `validateConfig`
(truthiness bypass) and IS persisted by `saveConfig`, refuting the
claimed "persists if and only if the field ranges hold". -/
theorem c5_counterexample :
    validateConfig (some c5cex) = true ∧
    (saveConfig (some c5cex) { stored := none }).1 = true ∧
    (saveConfig (some c5cex) { stored := none }).2.stored = some (mergeConfig c5cex) ∧
    claimFieldRanges c5cex = false := by
  have hv : validateConfig (some c5cex) = true := by decide
  refine ⟨hv, ?_, ?_, by decide⟩
  · simp [saveConfig, saveConfigTry, storageSet, hv]
  · simp [saveConfig, saveConfigTry, storageSet, hv]

/-- C5 (amended): `saveConfig` persists a configuration exactly when
`validateConfig` accepts it and the storage write goes through; on
validation failure it returns `false` with storage unchanged; and
`validateConfig` agrees with the claimed field ranges and enums
except for the truthiness bypass — provided `documentationPosition`
is present and no optional field carries the falsy value `0` / `""`,
the two predicates coincide. -/
theorem c5_save_validation (cfg : JsConfig) (s : StorageState)
    (hpos : cfg.documentationPosition ≠ none)
    (hfs : cfg.editorFontSize ≠ some 0)
    (hlh : cfg.editorLineHeight ≠ some 0)
    (hff : cfg.editorFontFamily ≠ some "")
    (hth : cfg.editorTheme ≠ some "")
    (hgs : cfg.indentGuideStyle ≠ some "") :
    ((saveConfig (some cfg) s).1 = true ↔
      (validateConfig (some cfg) = true ∧ s.setThrows = false)) ∧
    (validateConfig (some cfg) = false → saveConfig (some cfg) s = (false, s)) ∧
    ((saveConfig (some cfg) s).1 = true →
      (saveConfig (some cfg) s).2.stored = some (mergeConfig cfg)) ∧
    validateConfig (some cfg) = claimFieldRanges cfg := by
  have heq : validateConfig (some cfg) = claimFieldRanges cfg := by
    rw [validateConfig_eq_chain, claimFieldRanges,
      range_component, range_component, range_component, range_component,
      position_component cfg.documentationPosition hpos,
      range_component,
      guarded_range_component cfg.editorFontSize 10 24 hfs,
      guarded_range_component cfg.editorLineHeight 1 (5/2) hlh,
      guarded_enum_component cfg.editorFontFamily validFonts hff,
      guarded_enum_component cfg.editorTheme validThemes hth,
      guarded_enum_component cfg.indentGuideStyle validIndentStyles hgs]
  refine ⟨?_, ?_, ?_, heq⟩
  · cases h : validateConfig (some cfg) with
    | false => simp [saveConfig, saveConfigTry, h]
    | true =>
      cases hst : s.setThrows with
      | false => simp [saveConfig, saveConfigTry, storageSet, h, hst]
      | true => simp [saveConfig, saveConfigTry, storageSet, h, hst]
  · intro h
    simp [saveConfig, saveConfigTry, h]
  · intro h
    cases hv : validateConfig (some cfg) with
    | false => simp [saveConfig, saveConfigTry, hv] at h
    | true =>
      cases hst : s.setThrows with
      | false => simp [saveConfig, saveConfigTry, storageSet, hv, hst]
      | true => simp [saveConfig, saveConfigTry, storageSet, hv, hst] at h

/-- A small valid configuration used to instantiate the C5 and C6
theorems. -/
def cfgRight70 : JsConfig :=
  { documentationPosition := some "right", editorProportion := some 70 }

/-- C5 witness: the amended equivalences at a concrete configuration
and empty storage. -/
theorem c5_witness :
    (saveConfig (some cfgRight70) { stored := none }).1 = true ∧
    validateConfig (some cfgRight70) = claimFieldRanges cfgRight70 := by
  have h := c5_save_validation cfgRight70 { stored := none }
    (by decide) (by decide) (by decide) (by decide) (by decide) (by decide)
  exact ⟨h.1.mpr ⟨by decide, rfl⟩, h.2.2.2⟩

/-- C6: for every configuration accepted by `validateConfig`, the
merged configuration satisfies
`editorProportion + documentationProportion = 100`;
`documentationProportion` is recomputed from `editorProportion` and
never taken from the incoming value; and a successful save persists
exactly that merged configuration. -/
theorem c6_proportion_invariant (cfg : JsConfig)
    (hv : validateConfig (some cfg) = true) :
    (mergeConfig cfg).editorProportion + (mergeConfig cfg).documentationProportion = 100 ∧
    (∀ d, mergeConfig { cfg with documentationProportion := d } = mergeConfig cfg) ∧
    (∀ s : StorageState, s.setThrows = false →
      (saveConfig (some cfg) s).2.stored = some (mergeConfig cfg)) := by
  refine ⟨?_, fun d => rfl, ?_⟩
  · rw [validateConfig_eq_chain] at hv
    simp only [Bool.and_eq_true] at hv
    have hep := hv.1.1.1.1.1.2
    rcases e : cfg.editorProportion with _ | v
    · simp [mergeConfig, truthyNum, e, DEFAULT_CONFIG]
      try norm_num
    · rw [e] at hep
      simp only [jsLtOpt, jsGtOpt, Bool.not_or, Bool.and_eq_true, Bool.not_eq_true',
        decide_eq_false_iff_not, not_lt] at hep
      have hvne : v ≠ 0 := by
        intro h0
        rw [h0] at hep
        have := hep.1
        norm_num at this
      simp [mergeConfig, truthyNum, e, hvne]
  · intro s hst
    simp [saveConfig, saveConfigTry, storageSet, hv, hst]

/-- C6 witness: the invariant at a concrete valid configuration, with
an incoming `documentationProportion` of 55 being ignored. -/
theorem c6_witness :
    (mergeConfig cfgRight70).editorProportion +
      (mergeConfig cfgRight70).documentationProportion = 100 ∧
    mergeConfig { cfgRight70 with documentationProportion := some 55 } =
      mergeConfig cfgRight70 ∧
    (saveConfig (some cfgRight70) { stored := none }).2.stored =
      some (mergeConfig cfgRight70) := by
  have h := c6_proportion_invariant cfgRight70 (by decide)
  exact ⟨h.1, h.2.1 (some 55), h.2.2 { stored := none } rfl⟩

/-! ## Claim C10: `getConfig` never rejects -/

/-- C10: for every storage state `getConfig` resolves with a
configuration: when the read throws it returns the defaults with
storage untouched; when nothing is stored it returns `DEFAULT_CONFIG`
unmerged and first persists `DEFAULT_CONFIG` (exactly when the write
itself does not throw — a throwing write is swallowed by
`saveConfig`); when a configuration is stored it returns that
configuration merged over the defaults. -/
theorem c10_getConfig_total (s : StorageState) :
    (s.getThrows = true → getConfig s = (DEFAULT_CONFIG, s)) ∧
    (s.getThrows = false → s.stored = none →
      (getConfig s).1 = DEFAULT_CONFIG ∧
      (s.setThrows = false → (getConfig s).2.stored = some DEFAULT_CONFIG) ∧
      (s.setThrows = true → (getConfig s).2 = s)) ∧
    (∀ c, s.getThrows = false → s.stored = some c →
      getConfig s = (mergeConfig c.toJs, s)) := by
  have h66 : truthyNum (some (66 : ℚ)) = true := by decide
  have hdef : mergeConfig DEFAULT_CONFIG.toJs = DEFAULT_CONFIG := by
    simp only [mergeConfig, MergedConfig.toJs, DEFAULT_CONFIG, h66, Option.getD_some,
      if_true, MergedConfig.mk.injEq]
    norm_num
  have hval : validateConfig (some DEFAULT_CONFIG.toJs) = true := by
    simp only [validateConfig, MergedConfig.toJs, DEFAULT_CONFIG, jsLtOpt, jsGtOpt,
      truthyNum, truthyStr, includesOpt, validPositions, validFonts, validThemes,
      validIndentStyles]
    norm_num
  rcases s with ⟨st, gt, setT⟩
  refine ⟨?_, ?_, ?_⟩
  · intro hg
    subst hg
    simp [getConfig, getConfigTry, storageGet]
  · intro hg hst
    subst hg
    simp only at hst
    subst hst
    cases setT
    · simp [getConfig, getConfigTry, storageGet, saveConfig, saveConfigTry, storageSet,
        hval, hdef]
    · simp [getConfig, getConfigTry, storageGet, saveConfig, saveConfigTry, storageSet,
        hval]
  · intro c hg hst
    subst hg
    simp only at hst
    subst hst
    simp [getConfig, getConfigTry, storageGet]

/-- C10 witness: on empty, non-throwing storage `getConfig` returns
the defaults and persists them; on storage holding the defaults it
returns them re-merged. -/
theorem c10_witness :
    (getConfig ⟨none, false, false⟩).1 = DEFAULT_CONFIG ∧
    (getConfig ⟨none, false, false⟩).2.stored = some DEFAULT_CONFIG ∧
    getConfig ⟨some DEFAULT_CONFIG, false, false⟩ =
      (mergeConfig DEFAULT_CONFIG.toJs, ⟨some DEFAULT_CONFIG, false, false⟩) := by
  refine ⟨((c10_getConfig_total ⟨none, false, false⟩).2.1 rfl rfl).1,
    ((c10_getConfig_total ⟨none, false, false⟩).2.1 rfl rfl).2.1 rfl,
    (c10_getConfig_total ⟨some DEFAULT_CONFIG, false, false⟩).2.2 DEFAULT_CONFIG rfl rfl⟩

end CodaFormula
